import Mathlib

/-!
Verification development for the emoji sprite editor's core engine.

The embedding translates the source directly:
* JavaScript numbers are modeled as exact rationals (`ℚ`) for the state
  manager and as real numbers (`ℝ`) for the trigonometric canvas geometry;
  the source's floating-point rounding is outside the model.
* The JSON wire format is modeled at the parsed-value level (`JValue`):
  `JSON.stringify` / `JSON.parse` round-trip such values exactly, and a
  failed parse is `none`.  A field holding `undefined` is omitted by
  `JSON.stringify`, which the export models by omitting the key.
* History snapshots are `JSON.stringify(state)` strings in the source;
  serialization of the typed state is injective, so snapshots are modeled
  as state values compared structurally.  Stacks keep their most recent
  entry at the head (the end of the JS array).
* Mutation of sprite objects aliased between the live array and sorted
  copies is modeled by keying sprites on their `id` field; reachable
  states have pairwise distinct ids, which theorems assume explicitly.
-/

/-- A JSON-like runtime value: everything `JSON.parse` can produce, plus
`jundefined` for the result of accessing a missing property. -/
inductive JValue where
  | jnull
  | jundefined
  | jbool (b : Bool)
  | jnum (q : ℚ)
  | jstr (s : String)
  | jarr (items : List JValue)
  | jobj (fields : List (String × JValue))

/-- Property access `v[key]`: objects look the key up, everything else
(numbers, strings, booleans, arrays) yields `undefined` for our keys.
Access on `null` throws in JS; callers guard `jnull` separately. -/
def jget (v : JValue) (key : String) : JValue :=
  match v with
  | .jobj fields =>
    match fields.lookup key with
    | some w => w
    | none => .jundefined
  | _ => .jundefined

/-- JS truthiness: `null`, `undefined`, `false`, `0` and the empty string
are falsy; every other value is truthy. -/
def jsTruthy : JValue → Bool
  | .jnull => false
  | .jundefined => false
  | .jbool b => b
  | .jnum q => decide (q ≠ 0)
  | .jstr s => decide (s ≠ "")
  | .jarr _ => true
  | .jobj _ => true

/-- Read a numeric slot.  Reachable inputs store JS numbers here; for a
non-numeric value the ℚ-typed model coerces to 0 (no theorem below
depends on that branch). -/
def jsNum : JValue → ℚ
  | .jnum q => q
  | _ => 0

/-- `v || d` on a numeric slot: a non-zero number is returned as is,
every falsy value falls back to the default. -/
def jsOrNum (v : JValue) (d : ℚ) : ℚ :=
  match v with
  | .jnum q => if q = 0 then d else q
  | _ => d

/-- `a || b` for the content slot (`sprite.e || sprite.emoji`), then
read as a string: `none` models the slot ending up `undefined` (or a
non-string, which no theorem below exercises). -/
def jsContent (a b : JValue) : Option String :=
  match (if jsTruthy a then a else b) with
  | .jstr s => some s
  | _ => none

/-- `v !== undefined` is false. -/
def isUndef : JValue → Bool
  | .jundefined => true
  | _ => false

/-- `Math.round`: round half toward positive infinity. -/
def jsRound (q : ℚ) : ℤ := ⌊q + 1/2⌋

/-- `Math.round(q * 100) / 100`. -/
def round2 (q : ℚ) : ℚ := (jsRound (q * 100) : ℚ) / 100

/-- `Math.round(q * 10) / 10`. -/
def round1 (q : ℚ) : ℚ := (jsRound (q * 10) : ℚ) / 10

/-- `Math.round(q * 10000) / 10000`. -/
def round4 (q : ℚ) : ℚ := (jsRound (q * 10000) : ℚ) / 10000

/-- `SpriteObject` from `types.ts`, with numeric fields at `α` (ℚ for the
state manager, ℝ for canvas geometry).  `emoji` is `Option String`
because lenient import can leave the content slot `undefined`. -/
structure SpriteObject (α : Type) where
  id : String
  emoji : Option String
  x : α
  y : α
  rotation : α
  scaleX : α
  scaleY : α
  zIndex : ℤ
  deriving DecidableEq

/-- `EditorState` from `types.ts` plus the `customFont` field the
state manager's constructor adds. -/
structure EditorState where
  sprites : List (SpriteObject ℚ)
  selectedId : Option String
  nextId : ℕ
  showOrigin : Bool
  axesOnTop : Bool
  borderOnTop : Bool
  customFont : String
  deriving DecidableEq

/-- The `StateManager`'s mutable fields.  `notifications` counts
`notifyListeners()` calls so that theorems can talk about listener
notification. -/
structure StateManager where
  state : EditorState
  undoStack : List EditorState
  redoStack : List EditorState
  notifications : ℕ
  deriving DecidableEq

/-- `[...sprites].sort((a, b) => a.zIndex - b.zIndex)`: stable ascending
sort by `zIndex`. -/
def sortZ (l : List (SpriteObject ℚ)) : List (SpriteObject ℚ) :=
  l.mergeSort (fun a b => decide (a.zIndex ≤ b.zIndex))

/-- One element of `exportJSON`'s compact array: `e` always (when the
content slot is a string; a stringified `undefined` field is omitted),
`x`/`y`/`r` only when the rounded value is non-default, and either a
uniform `s` or independent `sx`/`sy`. -/
def exportElem (s : SpriteObject ℚ) : JValue :=
  let x := round2 s.x
  let y := round2 s.y
  let rotation := round1 s.rotation
  let scaleX := round4 s.scaleX
  let scaleY := round4 s.scaleY
  JValue.jobj
    ((match s.emoji with | some e => [("e", JValue.jstr e)] | none => []) ++
     (if x ≠ 0 then [("x", JValue.jnum x)] else []) ++
     (if y ≠ 0 then [("y", JValue.jnum y)] else []) ++
     (if rotation ≠ 0 then [("r", JValue.jnum rotation)] else []) ++
     (if scaleX = scaleY ∧ scaleX ≠ 1 then [("s", JValue.jnum scaleX)]
      else (if scaleX ≠ 1 then [("sx", JValue.jnum scaleX)] else []) ++
           (if scaleY ≠ 1 then [("sy", JValue.jnum scaleY)] else [])))

/-- `StateManager.exportJSON`: sprites sorted by `zIndex`, compacted. -/
def exportJSON (l : List (SpriteObject ℚ)) : JValue :=
  .jarr ((sortZ l).map exportElem)

/-- The scale-resolution chain of `importJSON`: `s`, then `sx`/`sy`,
then `scaleX`/`scaleY`, then legacy `scale`, else `(1, 1)`. -/
def importScale (v : JValue) : ℚ × ℚ :=
  if !isUndef (jget v "s") then
    (jsNum (jget v "s"), jsNum (jget v "s"))
  else if !isUndef (jget v "sx") || !isUndef (jget v "sy") then
    ((if !isUndef (jget v "sx") then jsNum (jget v "sx") else 1),
     (if !isUndef (jget v "sy") then jsNum (jget v "sy") else 1))
  else if !isUndef (jget v "scaleX") || !isUndef (jget v "scaleY") then
    ((if !isUndef (jget v "scaleX") then jsNum (jget v "scaleX") else 1),
     (if !isUndef (jget v "scaleY") then jsNum (jget v "scaleY") else 1))
  else if !isUndef (jget v "scale") then
    (jsNum (jget v "scale"), jsNum (jget v "scale"))
  else (1, 1)

/-- One element of `importJSON`'s array branch.  Property access on a
`null` element throws (caught by the surrounding `try`); ids and
`zIndex` are regenerated from the array position. -/
def importElem (nextId : ℕ) (index : ℕ) (v : JValue) : Except Unit (SpriteObject ℚ) :=
  match v with
  | .jnull => .error ()
  | _ =>
    .ok { id := "sprite-" ++ toString (nextId + index),
          emoji := jsContent (jget v "e") (jget v "emoji"),
          x := jsOrNum (jget v "x") 0,
          y := jsOrNum (jget v "y") 0,
          rotation := if !isUndef (jget v "r") then jsNum (jget v "r") else jsOrNum (jget v "rotation") 0,
          scaleX := (importScale v).1,
          scaleY := (importScale v).2,
          zIndex := (index : ℤ) }

/-- `imported.map((sprite, index) => ...)`: the first throwing element
aborts the whole map. -/
def importElems (nextId : ℕ) : ℕ → List JValue → Except Unit (List (SpriteObject ℚ))
  | _, [] => .ok []
  | index, v :: rest => do
    let s ← importElem nextId index v
    let l ← importElems nextId (index + 1) rest
    .ok (s :: l)

/-- `StateManager.saveSnapshot`: push unless identical to the top, clear
the redo stack, evict the oldest entry beyond 50. -/
def saveSnapshot (m : StateManager) : StateManager :=
  if m.undoStack.head? = some m.state then m
  else
    let pushed := m.state :: m.undoStack
    { m with
      undoStack := if pushed.length > 50 then pushed.dropLast else pushed,
      redoStack := [] }

/-- The committed-edit pattern shared by every snapshotting mutator:
mutate the state, `saveSnapshot()`, `notifyListeners()`. -/
def commitEdit (f : EditorState → EditorState) (m : StateManager) : StateManager :=
  let m1 := saveSnapshot { m with state := f m.state }
  { m1 with notifications := m1.notifications + 1 }

/-- The provisional-edit pattern (`updateSpriteWithoutSnapshot`):
mutate and notify, no snapshot. -/
def provisionalEdit (f : EditorState → EditorState) (m : StateManager) : StateManager :=
  { m with state := f m.state, notifications := m.notifications + 1 }

/-- `StateManager.undo`: no-op if at most one entry remains (the
baseline is never discarded); else pop the current entry onto the redo
stack and restore the state from the new top. -/
def undo (m : StateManager) : StateManager :=
  match m.undoStack with
  | current :: previous :: rest =>
    { m with
      state := previous,
      undoStack := previous :: rest,
      redoStack := current :: m.redoStack,
      notifications := m.notifications + 1 }
  | _ => m

/-- `StateManager.redo`. -/
def redo (m : StateManager) : StateManager :=
  match m.redoStack with
  | [] => m
  | next :: rest =>
    { m with
      state := next,
      undoStack := next :: m.undoStack,
      redoStack := rest,
      notifications := m.notifications + 1 }

/-- `StateManager.canUndo`. -/
def canUndo (m : StateManager) : Bool := decide (m.undoStack.length > 1)

/-- `Partial<SpriteObject>`. -/
structure SpriteUpdates where
  id : Option String := none
  emoji : Option (Option String) := none
  x : Option ℚ := none
  y : Option ℚ := none
  rotation : Option ℚ := none
  scaleX : Option ℚ := none
  scaleY : Option ℚ := none
  zIndex : Option ℤ := none

/-- `Object.assign(sprite, updates)`. -/
def assignUpdates (s : SpriteObject ℚ) (u : SpriteUpdates) : SpriteObject ℚ :=
  { id := u.id.getD s.id,
    emoji := u.emoji.getD s.emoji,
    x := u.x.getD s.x,
    y := u.y.getD s.y,
    rotation := u.rotation.getD s.rotation,
    scaleX := u.scaleX.getD s.scaleX,
    scaleY := u.scaleY.getD s.scaleY,
    zIndex := u.zIndex.getD s.zIndex }

/-- `StateManager.updateSprite`: silently does nothing when no sprite
has the id; else assign, snapshot, notify.  The in-place mutation of the
found sprite is keyed by id. -/
def updateSprite (m : StateManager) (id : String) (updates : SpriteUpdates) : StateManager :=
  match m.state.sprites.find? (fun s => decide (s.id = id)) with
  | none => m
  | some _ =>
    commitEdit (fun es =>
      { es with sprites := es.sprites.map (fun s => if s.id = id then assignUpdates s updates else s) }) m

/-- `StateManager.updateSpriteWithoutSnapshot`. -/
def updateSpriteWithoutSnapshot (m : StateManager) (id : String) (updates : SpriteUpdates) : StateManager :=
  match m.state.sprites.find? (fun s => decide (s.id = id)) with
  | none => m
  | some _ =>
    provisionalEdit (fun es =>
      { es with sprites := es.sprites.map (fun s => if s.id = id then assignUpdates s updates else s) }) m

/-- `StateManager.reindexZOrder`: sort a copy by `zIndex` and assign each
sprite its sorted position; the aliased in-place mutation is keyed by id. -/
def reindexZOrder (l : List (SpriteObject ℚ)) : List (SpriteObject ℚ) :=
  let sorted := sortZ l
  l.map (fun s => { s with zIndex := (sorted.findIdx (fun t => decide (t.id = s.id)) : ℤ) })

/-- `StateManager.deleteSprite`. -/
def deleteSprite (m : StateManager) (id : String) : StateManager :=
  commitEdit (fun es =>
    { es with
      sprites := reindexZOrder (es.sprites.filter (fun s => decide (s.id ≠ id))),
      selectedId := if es.selectedId = some id then none else es.selectedId }) m

/-- `StateManager.moveLayerUp`: swap `zIndex` with the successor in
sorted order, if any. -/
def moveLayerUp (m : StateManager) (id : String) : StateManager :=
  match m.state.sprites.find? (fun s => decide (s.id = id)) with
  | none => m
  | some sprite =>
    let sorted := sortZ m.state.sprites
    let index := sorted.findIdx (fun s => decide (s.id = id))
    if index < sorted.length - 1 then
      let neighbor := sorted.getD (index + 1) sprite
      commitEdit (fun es =>
        { es with sprites := es.sprites.map (fun s =>
            if s.id = sprite.id then { s with zIndex := neighbor.zIndex }
            else if s.id = neighbor.id then { s with zIndex := sprite.zIndex }
            else s) }) m
    else m

/-- `StateManager.moveLayerDown`: swap `zIndex` with the predecessor in
sorted order, if any. -/
def moveLayerDown (m : StateManager) (id : String) : StateManager :=
  match m.state.sprites.find? (fun s => decide (s.id = id)) with
  | none => m
  | some sprite =>
    let sorted := sortZ m.state.sprites
    let index := sorted.findIdx (fun s => decide (s.id = id))
    if 0 < index then
      let neighbor := sorted.getD (index - 1) sprite
      commitEdit (fun es =>
        { es with sprites := es.sprites.map (fun s =>
            if s.id = sprite.id then { s with zIndex := neighbor.zIndex }
            else if s.id = neighbor.id then { s with zIndex := sprite.zIndex }
            else s) }) m
    else m

/-- `StateManager.moveLayerToFront`: raise above the maximum then
re-tighten.  The list is nonempty whenever the guard finds the sprite,
so the `getD` default is never read. -/
def moveLayerToFront (m : StateManager) (id : String) : StateManager :=
  match m.state.sprites.find? (fun s => decide (s.id = id)) with
  | none => m
  | some _ =>
    let maxZ := ((m.state.sprites.map (fun s => s.zIndex)).max?).getD 0
    commitEdit (fun es =>
      { es with sprites := reindexZOrder (es.sprites.map (fun s =>
          if s.id = id then { s with zIndex := maxZ + 1 } else s)) }) m

/-- `StateManager.moveLayerToBack`. -/
def moveLayerToBack (m : StateManager) (id : String) : StateManager :=
  match m.state.sprites.find? (fun s => decide (s.id = id)) with
  | none => m
  | some _ =>
    let minZ := ((m.state.sprites.map (fun s => s.zIndex)).min?).getD 0
    commitEdit (fun es =>
      { es with sprites := reindexZOrder (es.sprites.map (fun s =>
          if s.id = id then { s with zIndex := minZ - 1 } else s)) }) m

/-- The typed coercion of a parsed full-format sprite object.  The
source stores the raw parsed object; the model reads the declared
fields. -/
def legacySpriteOf (w : JValue) : SpriteObject ℚ :=
  { id := (match jget w "id" with | .jstr s => s | _ => ""),
    emoji := (match jget w "emoji" with | .jstr s => some s | _ => none),
    x := jsNum (jget w "x"),
    y := jsNum (jget w "y"),
    rotation := jsNum (jget w "rotation"),
    scaleX := jsNum (jget w "scaleX"),
    scaleY := jsNum (jget w "scaleY"),
    zIndex := ⌊jsNum (jget w "zIndex")⌋ }

/-- The typed coercion of a parsed legacy full-state object
(`this.state = imported`). -/
def legacyStateOf (v : JValue) : EditorState :=
  { sprites := (match jget v "sprites" with | .jarr items => items | _ => []).map legacySpriteOf,
    selectedId := (match jget v "selectedId" with | .jstr s => some s | _ => none),
    nextId := (⌊jsNum (jget v "nextId")⌋).toNat,
    showOrigin := jsTruthy (jget v "showOrigin"),
    axesOnTop := jsTruthy (jget v "axesOnTop"),
    borderOnTop := jsTruthy (jget v "borderOnTop"),
    customFont := (match jget v "customFont" with | .jstr s => s | _ => "") }

/-- `StateManager.importJSON`.  `none` is a failed `JSON.parse`; an
array is the compact format (a throwing element aborts before any state
change); otherwise `imported.sprites && Array.isArray(imported.sprites)`
selects the legacy branch (property access on `null` throws). -/
def importJSON (input : Option JValue) (m : StateManager) : Bool × StateManager :=
  match input with
  | none => (false, m)
  | some v =>
    match v with
    | .jarr items =>
      match importElems m.state.nextId 0 items with
      | .error _ => (false, m)
      | .ok sprites =>
        (true, commitEdit (fun es =>
          { es with
            sprites := sprites,
            nextId := es.nextId + sprites.length,
            selectedId := none }) m)
    | .jnull => (false, m)
    | _ =>
      match jget v "sprites" with
      | .jarr _ => (true, commitEdit (fun _ => legacyStateOf v) m)
      | _ => (false, m)

/-- Every `StateManager` mutation is a committed edit (`addSprite`,
`updateSprite`, `deleteSprite`, `clearAll`, `selectSprite`, the flag and
font setters, the layer operations, the import branches), a provisional
edit (`updateSpriteWithoutSnapshot`), a bare snapshot
(`finalizeChanges`), an `undo` or a `redo`. -/
inductive Op where
  | edit (f : EditorState → EditorState)
  | provisional (f : EditorState → EditorState)
  | snapshot
  | undoOp
  | redoOp

/-- Apply one operation. -/
def applyOp : Op → StateManager → StateManager
  | .edit f, m => commitEdit f m
  | .provisional f, m => provisionalEdit f m
  | .snapshot, m => saveSnapshot m
  | .undoOp, m => undo m
  | .redoOp, m => redo m

/-- The integers `0, ..., n-1` in order. -/
def rangeZ (n : ℕ) : List ℤ :=
  (List.range n).map (fun k : ℕ => (k : ℤ))

/-- Live `zIndex` values are exactly `{0, ..., n-1}` as a multiset. -/
def denseZ (l : List (SpriteObject ℚ)) : Prop :=
  (l.map (fun s => s.zIndex)).Perm (rangeZ l.length)

/-- Sprite ids are pairwise distinct (JS object identity). -/
def nodupIds (l : List (SpriteObject ℚ)) : Prop :=
  (l.map (fun s => s.id)).Nodup

/-- The `zIndex` of the sprite with a given id, if any. -/
def zOf (l : List (SpriteObject ℚ)) (id : String) : Option ℤ :=
  (l.find? (fun s => decide (s.id = id))).map (fun s => s.zIndex)

/-- Actual-ink glyph extents as reported by `measureText` at the base
font size (the external glyph-metrics provider). -/
structure Extents where
  left : ℝ
  right : ℝ
  ascent : ℝ
  descent : ℝ

/-- The glyph-metrics provider, indexed by the sprite's content slot. -/
def GlyphMetrics : Type := Option String → Extents

/-- `Bounds` from `types.ts`. -/
structure Bounds where
  x : ℝ
  y : ℝ
  width : ℝ
  height : ℝ
  penX : ℝ
  penY : ℝ

/-- `CanvasRenderer.getSpriteBounds`. -/
noncomputable def getSpriteBounds (metrics : GlyphMetrics) (s : SpriteObject ℝ) : Bounds :=
  let e := metrics s.emoji
  let baseWidth := e.left + e.right
  let baseHeight := e.ascent + e.descent
  let width := baseWidth * s.scaleX
  let height := baseHeight * s.scaleY
  { x := s.x - width / 2
  , y := s.y - height / 2
  , width := width
  , height := height
  , penX := -baseWidth / 2 + e.left
  , penY := e.ascent - baseHeight / 2 }

/-- `CanvasRenderer.rotatePoint`: local (unrotated) space to world
space, angle in clockwise degrees. -/
noncomputable def rotatePoint (x y rotation : ℝ) : ℝ × ℝ :=
  let rad := rotation * Real.pi / 180
  let c := Real.cos rad
  let sn := Real.sin rad
  (x * c - y * sn, x * sn + y * c)

/-- `Gizmo.worldToLocalWithScale`: translate by the sprite position,
rotate by the negated rotation, divide by the explicit scales. -/
noncomputable def worldToLocalWithScale (spriteX spriteY rotation scaleX scaleY worldX worldY : ℝ) :
    ℝ × ℝ :=
  let localX := worldX - spriteX
  let localY := worldY - spriteY
  let rad := -rotation * Real.pi / 180
  let c := Real.cos rad
  let sn := Real.sin rad
  let rotatedX := localX * c - localY * sn
  let rotatedY := localX * sn + localY * c
  (rotatedX / scaleX, rotatedY / scaleY)

/-- `Gizmo.worldToLocal`: the variant using the sprite's current scale. -/
noncomputable def worldToLocal (s : SpriteObject ℝ) (worldX worldY : ℝ) : ℝ × ℝ :=
  worldToLocalWithScale s.x s.y s.rotation s.scaleX s.scaleY worldX worldY

/-- The paint transform applied to a local point: scale by
`(scaleX, scaleY)`, rotate by `rotation`, translate by the sprite
position (the `translate;rotate;scale` context transform of
`drawSprite`). -/
noncomputable def paintPoint (s : SpriteObject ℝ) (px py : ℝ) : ℝ × ℝ :=
  let r := rotatePoint (px * s.scaleX) (py * s.scaleY) s.rotation
  (s.x + r.1, s.y + r.2)

/-- `CanvasRenderer.isPointInSprite`: rotate the world point into the
sprite's frame and test the unrotated, scale-inclusive bounds. -/
noncomputable def isPointInSprite (metrics : GlyphMetrics) (s : SpriteObject ℝ)
    (worldX worldY : ℝ) : Prop :=
  let bounds := getSpriteBounds metrics s
  let localX := worldX - s.x
  let localY := worldY - s.y
  let rad := -s.rotation * Real.pi / 180
  let c := Real.cos rad
  let sn := Real.sin rad
  let rotatedX := localX * c - localY * sn
  let rotatedY := localX * sn + localY * c
  rotatedX ≥ -bounds.width / 2 ∧ rotatedX ≤ bounds.width / 2 ∧
    rotatedY ≥ -bounds.height / 2 ∧ rotatedY ≤ bounds.height / 2

/-- `[...sprites].sort((a, b) => b.zIndex - a.zIndex)`: stable
descending sort by `zIndex`. -/
def sortZDesc (l : List (SpriteObject ℝ)) : List (SpriteObject ℝ) :=
  l.mergeSort (fun a b => decide (b.zIndex ≤ a.zIndex))

open Classical in
/-- `CanvasRenderer.hitTest`: first containing sprite in descending
`zIndex` order, else none. -/
noncomputable def hitTest (metrics : GlyphMetrics) (l : List (SpriteObject ℝ))
    (worldX worldY : ℝ) : Option String :=
  ((sortZDesc l).find? (fun s => decide (isPointInSprite metrics s worldX worldY))).map
    (fun s => s.id)

open Classical in
/-- `Gizmo.handleScaling` as a function of the interaction session:
live sprite position/rotation, drag-start scales, drag-start local grab
point, current pointer, and the modifier key.  Returns the
`(scaleX, scaleY)` written by `updateSpriteWithoutSnapshot`. -/
noncomputable def handleScaling (spriteX spriteY rotation startScaleX startScaleY
    dragStartLocalX dragStartLocalY mouseX mouseY : ℝ) (shiftKey : Bool) : ℝ × ℝ :=
  let currentLocal := worldToLocalWithScale spriteX spriteY rotation
    startScaleX startScaleY mouseX mouseY
  if shiftKey then
    let newScaleX :=
      if |dragStartLocalX| > 0.001 then startScaleX * (currentLocal.1 / dragStartLocalX)
      else startScaleX
    let newScaleY :=
      if |dragStartLocalY| > 0.001 then startScaleY * (currentLocal.2 / dragStartLocalY)
      else startScaleY
    (max 0.1 |newScaleX|, max 0.1 |newScaleY|)
  else
    let startDist := Real.sqrt
      (dragStartLocalX * dragStartLocalX + dragStartLocalY * dragStartLocalY)
    let sr :=
      if startDist > 0.001 then
        Real.sqrt (currentLocal.1 * currentLocal.1 + currentLocal.2 * currentLocal.2) / startDist
      else 1
    (max 0.1 (startScaleX * sr), max 0.1 (startScaleY * sr))

/-- Relative paint order among sprites other than `sid` is unchanged
between two sprite lists, matching sprites by id. -/
def preservesUntouchedOrder (l l' : List (SpriteObject ℚ)) (sid : String) : Prop :=
  ∀ a b za zb za' zb', a ≠ sid → b ≠ sid →
    zOf l a = some za → zOf l b = some zb →
    zOf l' a = some za' → zOf l' b = some zb' →
    (za' < zb' ↔ za < zb)

/-- A reordering step is good: the result is dense, every untouched
sprite survives, and untouched relative order is preserved. -/
def goodReorder (l l' : List (SpriteObject ℚ)) (sid : String) : Prop :=
  denseZ l' ∧
    (∀ a, a ≠ sid → (zOf l a).isSome = true → (zOf l' a).isSome = true) ∧
    preservesUntouchedOrder l l' sid

/-- The de-duplication invariant on the history: walking the redo stack
(future-most last at the head, so reversed) and then the undo stack
never meets two equal adjacent snapshots. -/
def historyInv (m : StateManager) : Prop :=
  List.Chain' (fun a b => a ≠ b) (m.redoStack.reverse ++ m.undoStack)

/-- Modelled from the spec: a compact wire-format element carries its
required content field `e`. -/
def specValidCompactElem (v : JValue) : Prop :=
  ∃ s : String, jget v "e" = JValue.jstr s

/-- The sprite reconstructed by importing the export of `s` at array
position `index` with id counter `nextId`: every numeric field lands at
its declared rounding precision and `zIndex` is the array position. -/
def roundedSprite (nextId index : ℕ) (s : SpriteObject ℚ) : SpriteObject ℚ :=
  { id := "sprite-" ++ toString (nextId + index),
    emoji := s.emoji,
    x := round2 s.x,
    y := round2 s.y,
    rotation := round1 s.rotation,
    scaleX := round4 s.scaleX,
    scaleY := round4 s.scaleY,
    zIndex := (index : ℤ) }

/-- `roundedSprite` applied along a list starting at position `i`. -/
def roundListFrom (nextId : ℕ) : ℕ → List (SpriteObject ℚ) → List (SpriteObject ℚ)
  | _, [] => []
  | i, s :: rest => roundedSprite nextId i s :: roundListFrom nextId (i + 1) rest

/-- A concrete sprite used to evaluate the theorems below. -/
def sampleSpriteA : SpriteObject ℚ :=
  { id := "sprite-1", emoji := some "A", x := 0, y := 0, rotation := 0,
    scaleX := 1, scaleY := 1, zIndex := 0 }

/-- A second concrete sprite. -/
def sampleSpriteB : SpriteObject ℚ :=
  { id := "sprite-2", emoji := some "B", x := 3, y := 4, rotation := 90,
    scaleX := 2, scaleY := 2, zIndex := 1 }

/-- A concrete editor state holding the two sample sprites. -/
def sampleState : EditorState :=
  { sprites := [sampleSpriteA, sampleSpriteB], selectedId := none, nextId := 3,
    showOrigin := true, axesOnTop := false, borderOnTop := false, customFont := "Arial" }

/-- A concrete manager whose undo stack holds its own baseline state. -/
def sampleManager : StateManager :=
  { state := sampleState, undoStack := [sampleState], redoStack := [], notifications := 0 }

/-- A glyph-metrics provider reporting an 80×80 ink box for every
content string. -/
def squareMetrics : GlyphMetrics :=
  fun _ => { left := 40, right := 40, ascent := 40, descent := 40 }

/-- Bottom overlapping sprite (`zIndex = 0`) at the origin. -/
def overlapA : SpriteObject ℝ :=
  { id := "A", emoji := some "X", x := 0, y := 0, rotation := 0,
    scaleX := 1, scaleY := 1, zIndex := 0 }

/-- Top overlapping sprite (`zIndex = 1`) at the origin. -/
def overlapB : SpriteObject ℝ :=
  { id := "B", emoji := some "X", x := 0, y := 0, rotation := 0,
    scaleX := 1, scaleY := 1, zIndex := 1 }

/-- The sprite after the C3 drag: origin, unrotated, scale 2. -/
def scaledSprite : SpriteObject ℝ :=
  { id := "s", emoji := some "X", x := 0, y := 0, rotation := 0,
    scaleX := 2, scaleY := 2, zIndex := 0 }

lemma zle_trans : ∀ a b c : SpriteObject ℚ,
    decide (a.zIndex ≤ b.zIndex) = true → decide (b.zIndex ≤ c.zIndex) = true →
      decide (a.zIndex ≤ c.zIndex) = true := by
  intro a b c
  simp only [decide_eq_true_eq]
  omega

lemma zle_total : ∀ a b : SpriteObject ℚ,
    (decide (a.zIndex ≤ b.zIndex) || decide (b.zIndex ≤ a.zIndex)) = true := by
  intro a b
  simp only [Bool.or_eq_true, decide_eq_true_eq]
  omega

lemma sortZ_perm (l : List (SpriteObject ℚ)) : (sortZ l).Perm l :=
  List.mergeSort_perm l _

lemma sortZ_length (l : List (SpriteObject ℚ)) : (sortZ l).length = l.length :=
  List.length_mergeSort l

lemma sortZ_pairwise (l : List (SpriteObject ℚ)) :
    (sortZ l).Pairwise (fun a b => a.zIndex ≤ b.zIndex) :=
  (List.sorted_mergeSort zle_trans zle_total l).imp (fun h => by simpa using h)

lemma findIdx_id_getElem (m : List (SpriteObject ℚ))
    (hm : (m.map (fun s => s.id)).Nodup) (k : ℕ) (h : k < m.length) :
    m.findIdx (fun t => decide (t.id = m[k].id)) = k := by
  induction m generalizing k with
  | nil => simp at h
  | cons a m ih =>
    simp only [List.map_cons, List.nodup_cons] at hm
    obtain ⟨ha, hm'⟩ := hm
    cases k with
    | zero => simp [List.findIdx_cons]
    | succ k =>
      have hk : k < m.length := by simpa using h
      have hne : ¬ (a.id = m[k].id) := by
        intro he
        exact ha (he ▸ List.mem_map_of_mem (fun s => s.id) (List.getElem_mem hk))
      simp only [List.getElem_cons_succ, List.findIdx_cons, decide_eq_false hne, cond_false]
      rw [ih hm' k hk]

lemma find?_id_of_mem (m : List (SpriteObject ℚ))
    (hm : (m.map (fun s => s.id)).Nodup) (s : SpriteObject ℚ) (hs : s ∈ m) :
    m.find? (fun t => decide (t.id = s.id)) = some s := by
  induction m with
  | nil => simp at hs
  | cons a m ih =>
    simp only [List.map_cons, List.nodup_cons] at hm
    obtain ⟨ha, hm'⟩ := hm
    rcases List.mem_cons.mp hs with rfl | hs'
    · exact List.find?_cons_of_pos _ (by simp)
    · have hne : ¬ (a.id = s.id) := fun he => ha (he ▸ List.mem_map_of_mem _ hs')
      rw [List.find?_cons_of_neg _ (by simpa using hne)]
      exact ih hm' hs'

lemma findIdx_id_of_mem (m : List (SpriteObject ℚ))
    (hm : (m.map (fun s => s.id)).Nodup) (s : SpriteObject ℚ) (hs : s ∈ m) :
    ∃ (k : ℕ) (h : k < m.length), m.findIdx (fun t => decide (t.id = s.id)) = k ∧ m[k] = s := by
  obtain ⟨k, hk, he⟩ := List.mem_iff_getElem.mp hs
  refine ⟨k, hk, ?_, he⟩
  rw [← he]
  exact findIdx_id_getElem m hm k hk

lemma sortZ_map_zIndex_of_dense (l : List (SpriteObject ℚ)) (hd : denseZ l) :
    (sortZ l).map (fun s => s.zIndex) = rangeZ l.length := by
  have hs1 : List.Sorted (fun a b : ℤ => a ≤ b) ((sortZ l).map (fun s => s.zIndex)) :=
    (sortZ_pairwise l).map _ (fun a b h => h)
  have hs2 : List.Sorted (fun a b : ℤ => a ≤ b) (rangeZ l.length) :=
    (List.pairwise_lt_range _).map _ (fun a b h => by exact_mod_cast le_of_lt h)
  exact List.eq_of_perm_of_sorted (((sortZ_perm l).map _).trans hd) hs1 hs2


lemma sortZ_getElem_zIndex (l : List (SpriteObject ℚ)) (hd : denseZ l) (k : ℕ)
    (h : k < (sortZ l).length) :
    (sortZ l)[k].zIndex = (k : ℤ) := by
  have hk2 : k < l.length := by
    have := sortZ_length l
    omega
  have h1 : ((sortZ l).map (fun s => s.zIndex))[k]? = some ((sortZ l)[k].zIndex) := by
    simp [List.getElem?_eq_getElem h]
  rw [sortZ_map_zIndex_of_dense l hd] at h1
  simp [rangeZ, hk2] at h1
  omega

lemma nodupIds_sortZ (l : List (SpriteObject ℚ)) (hn : nodupIds l) :
    ((sortZ l).map (fun s => s.id)).Nodup :=
  ((sortZ_perm l).map _).nodup_iff.mpr hn

lemma findIdx_lt_findIdx_of_zlt (l : List (SpriteObject ℚ)) (hn : nodupIds l)
    {s t : SpriteObject ℚ} (hs : s ∈ l) (ht : t ∈ l) (hz : s.zIndex < t.zIndex) :
    (sortZ l).findIdx (fun u => decide (u.id = s.id)) <
      (sortZ l).findIdx (fun u => decide (u.id = t.id)) := by
  have hnm := nodupIds_sortZ l hn
  obtain ⟨i, hi, hfi, hgi⟩ :=
    findIdx_id_of_mem (sortZ l) hnm s ((sortZ_perm l).mem_iff.mpr hs)
  obtain ⟨j, hj, hfj, hgj⟩ :=
    findIdx_id_of_mem (sortZ l) hnm t ((sortZ_perm l).mem_iff.mpr ht)
  rw [hfi, hfj]
  by_contra hc
  push_neg at hc
  rcases lt_or_eq_of_le hc with hlt | heq
  · have := (List.pairwise_iff_getElem.mp (sortZ_pairwise l)) j i hj hi hlt
    rw [hgi, hgj] at this
    omega
  · subst heq
    rw [hgj] at hgi
    rw [hgi] at hz
    omega

lemma reindexZOrder_length (l : List (SpriteObject ℚ)) :
    (reindexZOrder l).length = l.length := by
  simp [reindexZOrder]

lemma reindexZOrder_denseZ (l : List (SpriteObject ℚ)) (hn : nodupIds l) :
    denseZ (reindexZOrder l) := by
  unfold denseZ
  rw [reindexZOrder_length]
  have hmap : (reindexZOrder l).map (fun s => s.zIndex)
      = l.map (fun s => ((sortZ l).findIdx (fun t => decide (t.id = s.id)) : ℤ)) := by
    simp [reindexZOrder, List.map_map]
  rw [hmap]
  have hnm := nodupIds_sortZ l hn
  have hsmap : (sortZ l).map
        (fun s => ((sortZ l).findIdx (fun t => decide (t.id = s.id)) : ℤ))
      = rangeZ l.length := by
    apply List.ext_getElem
    · simp [sortZ_length, rangeZ]
    · intro n h1 h2
      simp only [rangeZ, List.getElem_map, List.getElem_range]
      exact_mod_cast findIdx_id_getElem (sortZ l) hnm n (by simpa using h1)
  have hp := ((sortZ_perm l).map
    (fun s => ((sortZ l).findIdx (fun t => decide (t.id = s.id)) : ℤ))).symm
  rw [hsmap] at hp
  exact hp

lemma zOf_map (f : SpriteObject ℚ → SpriteObject ℚ) (hf : ∀ s, (f s).id = s.id)
    (l : List (SpriteObject ℚ)) (a : String) :
    zOf (l.map f) a = (l.find? (fun s => decide (s.id = a))).map (fun s => (f s).zIndex) := by
  unfold zOf
  rw [List.find?_map]
  have hpred : ((fun s : SpriteObject ℚ => decide (s.id = a)) ∘ f)
      = fun s => decide (s.id = a) := by
    funext s
    simp [hf]
  rw [hpred, Option.map_map]
  rfl

lemma zOf_some_of_mem (l : List (SpriteObject ℚ)) (hn : nodupIds l)
    (s : SpriteObject ℚ) (hs : s ∈ l) : zOf l s.id = some s.zIndex := by
  unfold zOf
  rw [find?_id_of_mem l hn s hs]
  rfl

lemma zOf_inv (l : List (SpriteObject ℚ)) (a : String) (z : ℤ)
    (h : zOf l a = some z) : ∃ s ∈ l, s.id = a ∧ s.zIndex = z := by
  unfold zOf at h
  cases hf : l.find? (fun s => decide (s.id = a)) with
  | none => rw [hf] at h; simp at h
  | some s =>
    rw [hf] at h
    simp at h
    exact ⟨s, List.mem_of_find?_eq_some hf, by simpa using List.find?_some hf, h⟩

lemma denseZ_nodup (l : List (SpriteObject ℚ)) (hd : denseZ l) :
    (l.map (fun s => s.zIndex)).Nodup := by
  refine hd.nodup_iff.mpr ?_
  exact (List.nodup_range _).map (fun a b h => by exact_mod_cast h)


lemma commitEdit_state (f : EditorState → EditorState) (m : StateManager) :
    (commitEdit f m).state = f m.state := by
  simp only [commitEdit, saveSnapshot]
  split <;> rfl

lemma zOf_reindex (fl : List (SpriteObject ℚ)) (hfln : nodupIds fl)
    (s' : SpriteObject ℚ) (hs' : s' ∈ fl) :
    zOf (reindexZOrder fl) s'.id
      = some (((sortZ fl).findIdx (fun t => decide (t.id = s'.id)) : ℕ) : ℤ) := by
  have hre : reindexZOrder fl = fl.map (fun s =>
      { s with zIndex := (((sortZ fl).findIdx (fun t => decide (t.id = s.id)) : ℕ) : ℤ) }) := rfl
  rw [hre, zOf_map (fun s =>
      { s with zIndex := (((sortZ fl).findIdx (fun t => decide (t.id = s.id)) : ℕ) : ℤ) })
    (fun s => rfl) fl s'.id]
  rw [find?_id_of_mem fl hfln s' hs']
  rfl

lemma goodReorder_refl (l : List (SpriteObject ℚ)) (sid : String) (hd : denseZ l) :
    goodReorder l l sid := by
  refine ⟨hd, fun a _ h => h, ?_⟩
  intro a b za zb za' zb' _ _ h1 h2 h3 h4
  rw [h1] at h3
  rw [h2] at h4
  injection h3 with h3
  injection h4 with h4
  rw [h3, h4]

lemma map_swapZ_perm (l : List (SpriteObject ℚ)) (hn : nodupIds l)
    (u v : SpriteObject ℚ) (hu : u ∈ l) (hv : v ∈ l) (hne : u.id ≠ v.id) :
    (l.map (fun s => if s.id = u.id then v.zIndex else if s.id = v.id then u.zIndex
      else s.zIndex)).Perm (l.map (fun s => s.zIndex)) := by
  have hndl : l.Nodup := List.Nodup.of_map _ hn
  have huv : u ≠ v := fun he => hne (congrArg (fun s => s.id) he)
  have hv1 : v ∈ l.erase u := hndl.mem_erase_iff.mpr ⟨huv.symm, hv⟩
  have h3 : l.Perm (u :: v :: (l.erase u).erase v) :=
    (List.perm_cons_erase hu).trans ((List.perm_cons_erase hv1).cons u)
  have hrest : ∀ s ∈ (l.erase u).erase v, s.id ≠ u.id ∧ s.id ≠ v.id := by
    intro s hsr
    have hse : s ∈ l.erase u := List.mem_of_mem_erase hsr
    have hsl : s ∈ l := List.mem_of_mem_erase hse
    have hsnv : s ≠ v := ((hndl.erase u).mem_erase_iff.mp hsr).1
    have hsnu : s ≠ u := (hndl.mem_erase_iff.mp hse).1
    exact ⟨fun he => hsnu (List.inj_on_of_nodup_map hn hsl hu he),
           fun he => hsnv (List.inj_on_of_nodup_map hn hsl hv he)⟩
  set g := fun s : SpriteObject ℚ =>
    if s.id = u.id then v.zIndex else if s.id = v.id then u.zIndex else s.zIndex with hg
  have hgu : g u = v.zIndex := by simp [hg]
  have hgv : g v = u.zIndex := by
    have hvu : ¬ (v.id = u.id) := fun he => hne he.symm
    simp [hg, hvu]
  have hrestmap : ((l.erase u).erase v).map g
      = ((l.erase u).erase v).map (fun s => s.zIndex) :=
    List.map_congr_left (fun s hs => by
      obtain ⟨h1, h2⟩ := hrest s hs
      simp [hg, h1, h2])
  have e1 : (l.map g).Perm ((u :: v :: (l.erase u).erase v).map g) := h3.map g
  have e2 : (u :: v :: (l.erase u).erase v).map g
      = v.zIndex :: u.zIndex :: ((l.erase u).erase v).map (fun s => s.zIndex) := by
    simp only [List.map_cons, hgu, hgv, hrestmap]
  have e3 : (v.zIndex :: u.zIndex :: ((l.erase u).erase v).map (fun s => s.zIndex)).Perm
      ((u :: v :: (l.erase u).erase v).map (fun s => s.zIndex)) := by
    simp only [List.map_cons]
    exact List.Perm.swap _ _ _
  exact ((e2 ▸ e1).trans e3).trans (h3.map (fun s : SpriteObject ℚ => s.zIndex)).symm

lemma reindex_good_on (l fl : List (SpriteObject ℚ)) (sid : String)
    (hn : nodupIds l) (hzn : (l.map (fun s => s.zIndex)).Nodup)
    (hfln : nodupIds fl)
    (hsurv : ∀ s ∈ l, s.id ≠ sid → ∃ s' ∈ fl, s'.id = s.id ∧ s'.zIndex = s.zIndex) :
    (∀ a, a ≠ sid → (zOf l a).isSome = true → (zOf (reindexZOrder fl) a).isSome = true) ∧
      preservesUntouchedOrder l (reindexZOrder fl) sid := by
  have hmain : ∀ a za, a ≠ sid → zOf l a = some za →
      ∃ s' ∈ fl, s'.id = a ∧ s'.zIndex = za ∧
        zOf (reindexZOrder fl) a
          = some (((sortZ fl).findIdx (fun t => decide (t.id = a)) : ℕ) : ℤ) := by
    intro a za ha hz
    obtain ⟨s, hsl, hsid, hsz⟩ := zOf_inv l a za hz
    obtain ⟨s', hs'fl, hs'id, hs'z⟩ := hsurv s hsl (by rw [hsid]; exact ha)
    have hida : s'.id = a := hs'id.trans hsid
    refine ⟨s', hs'fl, hida, hs'z.trans hsz, ?_⟩
    have := zOf_reindex fl hfln s' hs'fl
    rw [hida] at this
    exact this
  constructor
  · intro a ha hsome
    obtain ⟨za, hza⟩ := Option.isSome_iff_exists.mp hsome
    obtain ⟨s', _, _, _, hres⟩ := hmain a za ha hza
    rw [hres]
    rfl
  · intro a b za zb za' zb' ha hb h1 h2 h3 h4
    obtain ⟨sa, hsafl, hsaid, hsaz, hresa⟩ := hmain a za ha h1
    obtain ⟨sb, hsbfl, hsbid, hsbz, hresb⟩ := hmain b zb hb h2
    rw [hresa] at h3
    rw [hresb] at h4
    injection h3 with h3
    injection h4 with h4
    obtain ⟨s0a, hs0al, hs0aid, hs0az⟩ := zOf_inv l a za h1
    obtain ⟨s0b, hs0bl, hs0bid, hs0bz⟩ := zOf_inv l b zb h2
    constructor
    · intro hlt'
      rcases lt_trichotomy za zb with h | h | h
      · exact h
      · exfalso
        have hsab : s0a = s0b := by
          apply List.inj_on_of_nodup_map hzn hs0al hs0bl
          rw [hs0az, hs0bz, h]
        have hab : a = b := by rw [← hs0aid, ← hs0bid, hsab]
        have : za' = zb' := by
          rw [← h3, ← h4, hab]
        omega
      · exfalso
        have hrank := findIdx_lt_findIdx_of_zlt fl hfln hsbfl hsafl
          (by rw [hsaz, hsbz]; exact h)
        rw [hsaid, hsbid] at hrank
        have : zb' < za' := by
          rw [← h3, ← h4]
          exact_mod_cast hrank
        omega
    · intro hlt
      have hrank := findIdx_lt_findIdx_of_zlt fl hfln hsafl hsbfl
        (by rw [hsaz, hsbz]; exact hlt)
      rw [hsaid, hsbid] at hrank
      rw [← h3, ← h4]
      exact_mod_cast hrank

lemma delete_goodReorder (l : List (SpriteObject ℚ)) (sid : String)
    (hn : nodupIds l) (hd : denseZ l) :
    goodReorder l (reindexZOrder (l.filter (fun s => decide (s.id ≠ sid)))) sid := by
  set fl := l.filter (fun s => decide (s.id ≠ sid)) with hfl
  have hsub : fl.Sublist l := List.filter_sublist l
  have hfln : nodupIds fl :=
    List.Nodup.sublist (hsub.map (fun s : SpriteObject ℚ => s.id)) hn
  have hsurv0 : ∀ s ∈ l, s.id ≠ sid → ∃ s' ∈ fl, s'.id = s.id ∧ s'.zIndex = s.zIndex := by
    intro s hs hsid
    exact ⟨s, List.mem_filter.mpr ⟨hs, by simpa using hsid⟩, rfl, rfl⟩
  obtain ⟨hsurv, hord⟩ := reindex_good_on l fl sid hn (denseZ_nodup l hd) hfln hsurv0
  exact ⟨reindexZOrder_denseZ fl hfln, hsurv, hord⟩

lemma setZ_goodReorder (l : List (SpriteObject ℚ)) (sid : String) (znew : ℤ)
    (hn : nodupIds l) (hd : denseZ l) :
    goodReorder l (reindexZOrder (l.map (fun s =>
      if s.id = sid then { s with zIndex := znew } else s))) sid := by
  set fl := l.map (fun s => if s.id = sid then { s with zIndex := znew } else s) with hfl
  have hids : fl.map (fun s => s.id) = l.map (fun s => s.id) := by
    rw [hfl, List.map_map]
    exact List.map_congr_left (fun s hs => by
      simp only [Function.comp]
      split <;> rfl)
  have hfln : nodupIds fl := by
    unfold nodupIds
    rw [hids]
    exact hn
  have hsurv0 : ∀ s ∈ l, s.id ≠ sid → ∃ s' ∈ fl, s'.id = s.id ∧ s'.zIndex = s.zIndex := by
    intro s hs hsid
    refine ⟨s, ?_, rfl, rfl⟩
    rw [hfl]
    have hfix : (if s.id = sid then { s with zIndex := znew } else s) = s := if_neg hsid
    rw [← hfix]
    exact List.mem_map_of_mem _ hs
  obtain ⟨hsurv, hord⟩ := reindex_good_on l fl sid hn (denseZ_nodup l hd) hfln hsurv0
  exact ⟨reindexZOrder_denseZ fl hfln, hsurv, hord⟩

lemma swap_lt_iff (zu zv za zb : ℤ) (hadj : zv = zu + 1 ∨ zv = zu - 1)
    (ha : za ≠ zu) (hb : zb ≠ zu) :
    ((if za = zv then zu else za) < (if zb = zv then zu else zb)) ↔ za < zb := by
  split_ifs <;> omega

lemma swap_goodReorder (l : List (SpriteObject ℚ)) (sid : String)
    (hn : nodupIds l) (hd : denseZ l)
    (u v : SpriteObject ℚ) (hu : u ∈ l) (hv : v ∈ l)
    (husid : u.id = sid) (hne : u.id ≠ v.id)
    (hadj : v.zIndex = u.zIndex + 1 ∨ v.zIndex = u.zIndex - 1) :
    goodReorder l (l.map (fun s =>
      if s.id = u.id then { s with zIndex := v.zIndex }
      else if s.id = v.id then { s with zIndex := u.zIndex } else s)) sid := by
  have hzn := denseZ_nodup l hd
  set g := fun s : SpriteObject ℚ =>
    if s.id = u.id then { s with zIndex := v.zIndex }
    else if s.id = v.id then { s with zIndex := u.zIndex } else s with hg
  have hgid : ∀ s, (g s).id = s.id := by
    intro s
    simp only [hg]
    split_ifs <;> rfl
  have hgz : ∀ s : SpriteObject ℚ, (g s).zIndex
      = (if s.id = u.id then v.zIndex else if s.id = v.id then u.zIndex else s.zIndex) := by
    intro s
    simp only [hg]
    split_ifs <;> rfl
  have hval : ∀ c zc, c ≠ sid → zOf l c = some zc →
      zOf (l.map g) c = some (if zc = v.zIndex then u.zIndex else zc) ∧ zc ≠ u.zIndex := by
    intro c zc hc hzc
    obtain ⟨sc, hscl, hscid, hscz⟩ := zOf_inv l c zc hzc
    have hz1 : zOf (l.map g) c = some ((g sc).zIndex) := by
      have h0 := zOf_map g hgid l c
      rw [← hscid] at h0
      rw [find?_id_of_mem l hn sc hscl] at h0
      rw [hscid] at h0
      exact h0
    have hcu : ¬ (sc.id = u.id) := by
      intro he
      exact hc (by rw [← hscid, he, husid])
    have hzneq : zc ≠ u.zIndex := by
      intro he
      have : sc = u := List.inj_on_of_nodup_map hzn hscl hu (by rw [hscz, he])
      exact hcu (congrArg (fun s => s.id) this)
    refine ⟨?_, hzneq⟩
    rw [hz1, hgz sc, if_neg hcu]
    by_cases h5 : sc.id = v.id
    · have : sc = v := List.inj_on_of_nodup_map hn hscl hv h5
      rw [if_pos h5, if_pos (by rw [← hscz, this])]
    · rw [if_neg h5, hscz, if_neg (fun hc2 => h5 ?_)]
      have : sc = v := List.inj_on_of_nodup_map hzn hscl hv (by rw [hscz, hc2])
      rw [this]
  refine ⟨?_, ?_, ?_⟩
  · unfold denseZ
    rw [List.length_map]
    have hmz : (l.map g).map (fun s => s.zIndex)
        = l.map (fun s => if s.id = u.id then v.zIndex else if s.id = v.id then u.zIndex
            else s.zIndex) := by
      rw [List.map_map]
      exact List.map_congr_left (fun s _ => hgz s)
    rw [hmz]
    exact (map_swapZ_perm l hn u v hu hv hne).trans hd
  · intro a ha hsome
    obtain ⟨za, hza⟩ := Option.isSome_iff_exists.mp hsome
    obtain ⟨h1, _⟩ := hval a za ha hza
    rw [h1]
    rfl
  · intro a b za zb za' zb' ha hb h1 h2 h3 h4
    obtain ⟨ha1, ha2⟩ := hval a za ha h1
    obtain ⟨hb1, hb2⟩ := hval b zb hb h2
    rw [ha1] at h3
    rw [hb1] at h4
    injection h3 with h3
    injection h4 with h4
    rw [← h3, ← h4]
    exact swap_lt_iff u.zIndex v.zIndex za zb hadj ha2 hb2

lemma moveLayerUp_good (m : StateManager) (sid : String)
    (hn : nodupIds m.state.sprites) (hd : denseZ m.state.sprites) :
    goodReorder m.state.sprites (moveLayerUp m sid).state.sprites sid := by
  rcases hf : m.state.sprites.find? (fun s => decide (s.id = sid)) with _ | sprite
  · have hres : moveLayerUp m sid = m := by
      unfold moveLayerUp
      rw [hf]
    rw [hres]
    exact goodReorder_refl _ sid hd
  · have hsl : sprite ∈ m.state.sprites := List.mem_of_find?_eq_some hf
    have hsid : sprite.id = sid := by simpa using List.find?_some hf
    have hnm := nodupIds_sortZ m.state.sprites hn
    obtain ⟨i, hi, hfi, hgi⟩ := findIdx_id_of_mem (sortZ m.state.sprites) hnm sprite
      ((sortZ_perm m.state.sprites).mem_iff.mpr hsl)
    have hfidx : (sortZ m.state.sprites).findIdx (fun s => decide (s.id = sid)) = i := by
      rw [← hsid]
      exact hfi
    by_cases hguard : (sortZ m.state.sprites).findIdx (fun s => decide (s.id = sid))
        < (sortZ m.state.sprites).length - 1
    · have hi1 : i + 1 < (sortZ m.state.sprites).length := by
        rw [hfidx] at hguard
        omega
      have hres : (moveLayerUp m sid).state.sprites = m.state.sprites.map (fun s =>
          if s.id = sprite.id
          then { s with zIndex := ((sortZ m.state.sprites)[i + 1]).zIndex }
          else if s.id = ((sortZ m.state.sprites)[i + 1]).id
          then { s with zIndex := sprite.zIndex }
          else s) := by
        simp only [moveLayerUp, hf]
        rw [if_pos hguard, commitEdit_state, hfidx, List.getD_eq_getElem _ _ hi1]
      rw [hres]
      have hvl : (sortZ m.state.sprites)[i + 1] ∈ m.state.sprites :=
        (sortZ_perm m.state.sprites).mem_iff.mp (List.getElem_mem hi1)
      have hneid : sprite.id ≠ ((sortZ m.state.sprites)[i + 1]).id := by
        intro he
        have hndsort : (sortZ m.state.sprites).Nodup := List.Nodup.of_map _ hnm
        have heq : (sortZ m.state.sprites)[i] = (sortZ m.state.sprites)[i + 1] :=
          hgi.trans (List.inj_on_of_nodup_map hnm
            ((sortZ_perm m.state.sprites).mem_iff.mpr hsl) (List.getElem_mem hi1) he)
        have := (hndsort.getElem_inj_iff).mp heq
        omega
      have hadj : ((sortZ m.state.sprites)[i + 1]).zIndex = sprite.zIndex + 1 ∨
          ((sortZ m.state.sprites)[i + 1]).zIndex = sprite.zIndex - 1 := by
        left
        rw [sortZ_getElem_zIndex m.state.sprites hd (i + 1) hi1, ← hgi,
          sortZ_getElem_zIndex m.state.sprites hd i hi]
        omega
      exact swap_goodReorder m.state.sprites sid hn hd sprite _ hsl hvl hsid hneid hadj
    · have hres : moveLayerUp m sid = m := by
        simp only [moveLayerUp, hf]
        rw [if_neg hguard]
      rw [hres]
      exact goodReorder_refl _ sid hd

lemma moveLayerDown_good (m : StateManager) (sid : String)
    (hn : nodupIds m.state.sprites) (hd : denseZ m.state.sprites) :
    goodReorder m.state.sprites (moveLayerDown m sid).state.sprites sid := by
  rcases hf : m.state.sprites.find? (fun s => decide (s.id = sid)) with _ | sprite
  · have hres : moveLayerDown m sid = m := by
      unfold moveLayerDown
      rw [hf]
    rw [hres]
    exact goodReorder_refl _ sid hd
  · have hsl : sprite ∈ m.state.sprites := List.mem_of_find?_eq_some hf
    have hsid : sprite.id = sid := by simpa using List.find?_some hf
    have hnm := nodupIds_sortZ m.state.sprites hn
    obtain ⟨i, hi, hfi, hgi⟩ := findIdx_id_of_mem (sortZ m.state.sprites) hnm sprite
      ((sortZ_perm m.state.sprites).mem_iff.mpr hsl)
    have hfidx : (sortZ m.state.sprites).findIdx (fun s => decide (s.id = sid)) = i := by
      rw [← hsid]
      exact hfi
    by_cases hguard : 0 < (sortZ m.state.sprites).findIdx (fun s => decide (s.id = sid))
    · have hipos : 0 < i := by omega
      have hi1 : i - 1 < (sortZ m.state.sprites).length := by omega
      have hres : (moveLayerDown m sid).state.sprites = m.state.sprites.map (fun s =>
          if s.id = sprite.id
          then { s with zIndex := ((sortZ m.state.sprites)[i - 1]).zIndex }
          else if s.id = ((sortZ m.state.sprites)[i - 1]).id
          then { s with zIndex := sprite.zIndex }
          else s) := by
        simp only [moveLayerDown, hf]
        rw [if_pos hguard, commitEdit_state, hfidx, List.getD_eq_getElem _ _ hi1]
      rw [hres]
      have hvl : (sortZ m.state.sprites)[i - 1] ∈ m.state.sprites :=
        (sortZ_perm m.state.sprites).mem_iff.mp (List.getElem_mem hi1)
      have hneid : sprite.id ≠ ((sortZ m.state.sprites)[i - 1]).id := by
        intro he
        have hndsort : (sortZ m.state.sprites).Nodup := List.Nodup.of_map _ hnm
        have heq : (sortZ m.state.sprites)[i] = (sortZ m.state.sprites)[i - 1] :=
          hgi.trans (List.inj_on_of_nodup_map hnm
            ((sortZ_perm m.state.sprites).mem_iff.mpr hsl) (List.getElem_mem hi1) he)
        have := (hndsort.getElem_inj_iff).mp heq
        omega
      have hadj : ((sortZ m.state.sprites)[i - 1]).zIndex = sprite.zIndex + 1 ∨
          ((sortZ m.state.sprites)[i - 1]).zIndex = sprite.zIndex - 1 := by
        right
        rw [sortZ_getElem_zIndex m.state.sprites hd (i - 1) hi1, ← hgi,
          sortZ_getElem_zIndex m.state.sprites hd i hi]
        omega
      exact swap_goodReorder m.state.sprites sid hn hd sprite _ hsl hvl hsid hneid hadj
    · have hres : moveLayerDown m sid = m := by
        simp only [moveLayerDown, hf]
        rw [if_neg hguard]
      rw [hres]
      exact goodReorder_refl _ sid hd

lemma deleteSprite_good (m : StateManager) (sid : String)
    (hn : nodupIds m.state.sprites) (hd : denseZ m.state.sprites) :
    goodReorder m.state.sprites (deleteSprite m sid).state.sprites sid := by
  have hres : (deleteSprite m sid).state.sprites
      = reindexZOrder (m.state.sprites.filter (fun s => decide (s.id ≠ sid))) := by
    unfold deleteSprite
    rw [commitEdit_state]
  rw [hres]
  exact delete_goodReorder m.state.sprites sid hn hd

lemma moveLayerToFront_good (m : StateManager) (sid : String)
    (hn : nodupIds m.state.sprites) (hd : denseZ m.state.sprites) :
    goodReorder m.state.sprites (moveLayerToFront m sid).state.sprites sid := by
  rcases hf : m.state.sprites.find? (fun s => decide (s.id = sid)) with _ | sprite
  · have hres : moveLayerToFront m sid = m := by
      unfold moveLayerToFront
      rw [hf]
    rw [hres]
    exact goodReorder_refl _ sid hd
  · have hres : (moveLayerToFront m sid).state.sprites
        = reindexZOrder (m.state.sprites.map (fun s =>
            if s.id = sid
            then { s with zIndex :=
              ((m.state.sprites.map (fun s => s.zIndex)).max?).getD 0 + 1 }
            else s)) := by
      simp only [moveLayerToFront, hf]
      rw [commitEdit_state]
    rw [hres]
    exact setZ_goodReorder m.state.sprites sid _ hn hd

lemma moveLayerToBack_good (m : StateManager) (sid : String)
    (hn : nodupIds m.state.sprites) (hd : denseZ m.state.sprites) :
    goodReorder m.state.sprites (moveLayerToBack m sid).state.sprites sid := by
  rcases hf : m.state.sprites.find? (fun s => decide (s.id = sid)) with _ | sprite
  · have hres : moveLayerToBack m sid = m := by
      unfold moveLayerToBack
      rw [hf]
    rw [hres]
    exact goodReorder_refl _ sid hd
  · have hres : (moveLayerToBack m sid).state.sprites
        = reindexZOrder (m.state.sprites.map (fun s =>
            if s.id = sid
            then { s with zIndex :=
              ((m.state.sprites.map (fun s => s.zIndex)).min?).getD 0 - 1 }
            else s)) := by
      simp only [moveLayerToBack, hf]
      rw [commitEdit_state]
    rw [hres]
    exact setZ_goodReorder m.state.sprites sid _ hn hd

lemma deleteSprite_length (m : StateManager) (sid : String) (hn : nodupIds m.state.sprites)
    (s : SpriteObject ℚ) (hs : s ∈ m.state.sprites) (hsid : s.id = sid) :
    (deleteSprite m sid).state.sprites.length = m.state.sprites.length - 1 := by
  have hres : (deleteSprite m sid).state.sprites
      = reindexZOrder (m.state.sprites.filter (fun t => decide (t.id ≠ sid))) := by
    unfold deleteSprite
    rw [commitEdit_state]
  rw [hres, reindexZOrder_length]
  have hndl : m.state.sprites.Nodup := List.Nodup.of_map _ hn
  have hperm := (List.perm_cons_erase hs).filter (fun t => decide (t.id ≠ sid))
  rw [List.filter_cons] at hperm
  have hps : (decide (s.id ≠ sid)) = false := by simp [hsid]
  rw [hps] at hperm
  simp only [Bool.false_eq_true, if_false] at hperm
  have herase : (m.state.sprites.erase s).filter (fun t => decide (t.id ≠ sid))
      = m.state.sprites.erase s := by
    rw [List.filter_eq_self]
    intro a ha
    have hal : a ∈ m.state.sprites := List.mem_of_mem_erase ha
    have hane : a ≠ s := (hndl.mem_erase_iff.mp ha).1
    simp only [decide_eq_true_eq]
    intro he
    exact hane (List.inj_on_of_nodup_map hn hal hs (he.trans hsid.symm))
  rw [herase] at hperm
  rw [hperm.length_eq, List.length_erase_of_mem hs]

/-- C5: in a state with distinct ids and dense `zIndex`, each of the
reordering operations (`moveLayerToFront`, `moveLayerToBack`,
`moveLayerUp`, `moveLayerDown`) and `deleteSprite` leaves the live
`zIndex` multiset exactly `{0, ..., n-1}` and preserves the relative
order of the untouched sprites; deleting a present sprite shrinks the
list from `N` to `N-1` (so `zIndex` values are `{0, ..., N-2}`). -/
theorem c5_zIndex_density (m : StateManager) (sid : String)
    (hn : nodupIds m.state.sprites) (hd : denseZ m.state.sprites) :
    goodReorder m.state.sprites (deleteSprite m sid).state.sprites sid ∧
    goodReorder m.state.sprites (moveLayerToFront m sid).state.sprites sid ∧
    goodReorder m.state.sprites (moveLayerToBack m sid).state.sprites sid ∧
    goodReorder m.state.sprites (moveLayerUp m sid).state.sprites sid ∧
    goodReorder m.state.sprites (moveLayerDown m sid).state.sprites sid ∧
    (∀ s ∈ m.state.sprites, s.id = sid →
      (deleteSprite m sid).state.sprites.length = m.state.sprites.length - 1) :=
  ⟨deleteSprite_good m sid hn hd, moveLayerToFront_good m sid hn hd,
   moveLayerToBack_good m sid hn hd, moveLayerUp_good m sid hn hd,
   moveLayerDown_good m sid hn hd,
   fun s hs hsid => deleteSprite_length m sid hn s hs hsid⟩

/-- Witness: the density and order statement evaluated on a concrete
two-sprite state. -/
theorem c5_zIndex_density_witness :
    goodReorder sampleManager.state.sprites
      (deleteSprite sampleManager "sprite-1").state.sprites "sprite-1" ∧
    (deleteSprite sampleManager "sprite-1").state.sprites.length
      = sampleManager.state.sprites.length - 1 := by
  have h := c5_zIndex_density sampleManager "sprite-1"
    (by unfold nodupIds; decide) (by unfold denseZ rangeZ; decide)
  exact ⟨h.1, h.2.2.2.2.2 sampleSpriteA (by decide) (by decide)⟩

lemma saveSnapshot_undo_ne_nil (m : StateManager) : (saveSnapshot m).undoStack ≠ [] := by
  unfold saveSnapshot
  by_cases hdup : m.undoStack.head? = some m.state
  · rw [if_pos hdup]
    intro he
    rw [he] at hdup
    simp at hdup
  · rw [if_neg hdup]
    simp only
    split
    · rename_i hlen
      rw [← List.length_pos, List.length_dropLast]
      simp only [List.length_cons] at hlen ⊢
      omega
    · exact List.cons_ne_nil _ _

lemma commitEdit_undoStack (f : EditorState → EditorState) (m : StateManager) :
    (commitEdit f m).undoStack = (saveSnapshot { m with state := f m.state }).undoStack := rfl

/-- C6: when the undo stack holds exactly one entry, `undo()` leaves the
manager entirely unchanged and `canUndo()` reports false; moreover no
operation ever empties a nonempty undo stack. -/
theorem c6_undo_floor (m : StateManager) :
    (m.undoStack.length = 1 → undo m = m ∧ canUndo m = false) ∧
    (m.undoStack ≠ [] → ∀ op : Op, (applyOp op m).undoStack ≠ []) := by
  constructor
  · intro h1
    constructor
    · unfold undo
      rcases hms : m.undoStack with _ | ⟨a, tl⟩
      · rfl
      · rcases tl with _ | ⟨b, rest⟩
        · rfl
        · rw [hms] at h1
          simp at h1
    · unfold canUndo
      rw [h1]
      rfl
  · intro hne op
    cases op with
    | edit f =>
      rw [applyOp, commitEdit_undoStack]
      exact saveSnapshot_undo_ne_nil _
    | provisional f => exact hne
    | snapshot => exact saveSnapshot_undo_ne_nil m
    | undoOp =>
      rw [applyOp]
      unfold undo
      rcases hms : m.undoStack with _ | ⟨a, tl⟩
      · exact absurd hms hne
      · rcases tl with _ | ⟨b, rest⟩
        · simp only [hms]
          exact List.cons_ne_nil _ _
        · simp only [hms]
          exact List.cons_ne_nil _ _
    | redoOp =>
      rw [applyOp]
      unfold redo
      rcases m.redoStack with _ | ⟨a, tl⟩
      · exact hne
      · exact List.cons_ne_nil _ _

/-- Witness: the undo floor evaluated on the concrete one-entry manager. -/
theorem c6_undo_floor_witness :
    (undo sampleManager = sampleManager ∧ canUndo sampleManager = false) ∧
      (applyOp Op.undoOp sampleManager).undoStack ≠ [] := by
  have h := c6_undo_floor sampleManager
  exact ⟨h.1 (by decide), h.2 (by decide) Op.undoOp⟩

lemma saveSnapshot_historyInv (m : StateManager) (h : historyInv m) :
    historyInv (saveSnapshot m) := by
  unfold saveSnapshot
  by_cases hdup : m.undoStack.head? = some m.state
  · rw [if_pos hdup]
    exact h
  · rw [if_neg hdup]
    unfold historyInv at h ⊢
    simp only [List.reverse_nil, List.nil_append]
    have hchain : List.Chain' (fun a b => a ≠ b) (m.state :: m.undoStack) := by
      rw [List.chain'_cons']
      refine ⟨?_, h.suffix (List.suffix_append _ _)⟩
      intro y hy
      intro he
      rw [he] at hdup
      exact hdup (Option.mem_def.mp hy)
    split
    · rw [List.dropLast_eq_take]
      exact hchain.take _
    · exact hchain

/-- C7: a commit whose serialized state equals the top of the undo stack
changes nothing; the history invariant (no two adjacent equal snapshots
along redo-then-undo) is preserved by every operation and yields that no
two consecutive undo-stack entries are identical. -/
theorem c7_snapshot_dedup (m : StateManager) :
    (m.undoStack.head? = some m.state → saveSnapshot m = m) ∧
    (∀ op : Op, historyInv m → historyInv (applyOp op m)) ∧
    (historyInv m → m.undoStack.Chain' (fun a b => a ≠ b)) := by
  refine ⟨?_, ?_, ?_⟩
  · intro h
    unfold saveSnapshot
    rw [if_pos h]
  · intro op h
    cases op with
    | edit f =>
      rw [applyOp]
      have : historyInv { m with state := f m.state } := h
      exact saveSnapshot_historyInv _ this
    | provisional f => exact h
    | snapshot => exact saveSnapshot_historyInv m h
    | undoOp =>
      rw [applyOp]
      unfold undo
      rcases hms : m.undoStack with _ | ⟨a, tl⟩
      · exact h
      · rcases tl with _ | ⟨b, rest⟩
        · exact h
        · unfold historyInv at h ⊢
          rw [hms] at h
          simp only [List.reverse_cons, List.append_assoc] at h ⊢
          simpa using h
    | redoOp =>
      rw [applyOp]
      unfold redo
      rcases hms : m.redoStack with _ | ⟨a, tl⟩
      · exact h
      · unfold historyInv at h ⊢
        rw [hms] at h
        simp only [List.reverse_cons, List.append_assoc] at h ⊢
        simpa using h
  · intro h
    exact h.suffix (List.suffix_append _ _)

/-- Witness: de-duplication and the adjacent-distinct consequence on the
concrete manager, whose stack top equals its state. -/
theorem c7_snapshot_dedup_witness :
    saveSnapshot sampleManager = sampleManager ∧
      sampleManager.undoStack.Chain' (fun a b => a ≠ b) := by
  have h := c7_snapshot_dedup sampleManager
  exact ⟨h.1 rfl, h.2.2 (by simp [historyInv, sampleManager])⟩

/-- C10: updating a sprite id that no live sprite carries is a complete
no-op at the public interface: the state, both history stacks and the
notification count are all unchanged, for both the snapshotting and the
provisional update. -/
theorem c10_update_unknown_id (m : StateManager) (id : String) (u : SpriteUpdates)
    (h : ∀ s ∈ m.state.sprites, s.id ≠ id) :
    updateSprite m id u = m ∧ updateSpriteWithoutSnapshot m id u = m := by
  have hf : m.state.sprites.find? (fun s => decide (s.id = id)) = none :=
    List.find?_eq_none.mpr (fun s hs => by simpa using h s hs)
  constructor
  · unfold updateSprite
    rw [hf]
  · unfold updateSpriteWithoutSnapshot
    rw [hf]

/-- Witness: updating a nonexistent id on the concrete manager. -/
theorem c10_update_unknown_id_witness :
    updateSprite sampleManager "sprite-9" { x := some 7 } = sampleManager ∧
      updateSpriteWithoutSnapshot sampleManager "sprite-9" { x := some 7 } = sampleManager :=
  c10_update_unknown_id sampleManager "sprite-9" { x := some 7 } (by decide)

lemma round2_zero : round2 0 = 0 := by norm_num [round2, jsRound]

lemma round1_zero : round1 0 = 0 := by norm_num [round1, jsRound]

lemma round4_one : round4 1 = 1 := by norm_num [round4, jsRound]

set_option maxHeartbeats 1600000 in
/-- C9: a sprite whose fields all sit at their defaults exports to
exactly the one-field object carrying its content, and each field equal
to its default is omitted from the compact element. -/
theorem c9_default_omission :
    (∀ (s : SpriteObject ℚ) (e : String), s.emoji = some e →
      s.x = 0 → s.y = 0 → s.rotation = 0 → s.scaleX = 1 → s.scaleY = 1 →
      exportElem s = JValue.jobj [("e", JValue.jstr e)]) ∧
    (∀ s : SpriteObject ℚ,
      (s.x = 0 → jget (exportElem s) "x" = JValue.jundefined) ∧
      (s.y = 0 → jget (exportElem s) "y" = JValue.jundefined) ∧
      (s.rotation = 0 → jget (exportElem s) "r" = JValue.jundefined) ∧
      (s.scaleX = 1 → jget (exportElem s) "sx" = JValue.jundefined ∧
        jget (exportElem s) "s" = JValue.jundefined) ∧
      (s.scaleY = 1 → jget (exportElem s) "sy" = JValue.jundefined ∧
        jget (exportElem s) "s" = JValue.jundefined)) := by
  constructor
  · intro s e he hx hy hr hsx hsy
    simp [exportElem, he, hx, hy, hr, hsx, hsy, round2_zero, round1_zero, round4_one]
  · intro s
    refine ⟨?_, ?_, ?_, ?_, ?_⟩
    · intro hx
      simp only [exportElem, hx, round2_zero]
      rcases s.emoji with _ | e <;> split_ifs <;> simp_all [jget, List.lookup]
    · intro hy
      simp only [exportElem, hy, round2_zero]
      rcases s.emoji with _ | e <;> split_ifs <;> simp_all [jget, List.lookup]
    · intro hr
      simp only [exportElem, hr, round1_zero]
      rcases s.emoji with _ | e <;> split_ifs <;> simp_all [jget, List.lookup]
    · intro hsx
      simp only [exportElem, hsx, round4_one]
      constructor <;>
        (rcases s.emoji with _ | e <;> split_ifs <;> simp_all [jget, List.lookup])
    · intro hsy
      simp only [exportElem, hsy, round4_one]
      constructor <;>
        (rcases s.emoji with _ | e <;> split_ifs <;> simp_all [jget, List.lookup])

/-- Witness: the default sprite exports to the bare content object, and
its zero offset stays omitted. -/
theorem c9_default_omission_witness :
    exportElem sampleSpriteA = JValue.jobj [("e", JValue.jstr "A")] ∧
      jget (exportElem sampleSpriteA) "x" = JValue.jundefined :=
  ⟨c9_default_omission.1 sampleSpriteA "A" rfl rfl rfl rfl rfl rfl,
   (c9_default_omission.2 sampleSpriteA).1 rfl⟩

lemma exportElem_fields (s : SpriteObject ℚ) :
    exportElem s = JValue.jobj (
      (match s.emoji with | some e => [("e", JValue.jstr e)] | none => []) ++
      (if round2 s.x ≠ 0 then [("x", JValue.jnum (round2 s.x))] else []) ++
      (if round2 s.y ≠ 0 then [("y", JValue.jnum (round2 s.y))] else []) ++
      (if round1 s.rotation ≠ 0 then [("r", JValue.jnum (round1 s.rotation))] else []) ++
      (if round4 s.scaleX = round4 s.scaleY ∧ round4 s.scaleX ≠ 1
        then [("s", JValue.jnum (round4 s.scaleX))]
        else (if round4 s.scaleX ≠ 1 then [("sx", JValue.jnum (round4 s.scaleX))] else []) ++
             (if round4 s.scaleY ≠ 1 then [("sy", JValue.jnum (round4 s.scaleY))] else []))) :=
  rfl

lemma jget_jobj (fs : List (String × JValue)) (k : String) :
    jget (JValue.jobj fs) k = (fs.lookup k).getD JValue.jundefined := by
  cases h : fs.lookup k <;> simp [jget, h]

lemma lookup_ite_single_ne (c : Prop) [Decidable c] {key k : String} (v : JValue)
    (h : (k == key) = false) :
    List.lookup k (if c then [(key, v)] else []) = none := by
  split_ifs <;> simp [List.lookup, h]

lemma lookup_ite_single_eq (c : Prop) [Decidable c] (key : String) (v : JValue) :
    List.lookup key (if c then [(key, v)] else []) = if c then some v else none := by
  split_ifs <;> simp [List.lookup]

lemma lookup_emoji_piece_ne (o : Option String) {k : String} (h : (k == "e") = false) :
    List.lookup k (match o with | some e => [("e", JValue.jstr e)] | none => []) = none := by
  rcases o with _ | e <;> simp [List.lookup, h]

lemma lookup_emoji_piece_e (o : Option String) :
    List.lookup "e" (match o with | some e => [("e", JValue.jstr e)] | none => [])
      = o.map (fun e => JValue.jstr e) := by
  rcases o with _ | e <;> simp [List.lookup]

lemma lookup_scaletree_ne (c0 c1 c2 : Prop) [Decidable c0] [Decidable c1] [Decidable c2]
    (v0 v1 v2 : JValue) {k : String} (h1 : (k == "s") = false) (h2 : (k == "sx") = false)
    (h3 : (k == "sy") = false) :
    List.lookup k (if c0 then [("s", v0)]
      else (if c1 then [("sx", v1)] else []) ++ (if c2 then [("sy", v2)] else [])) = none := by
  by_cases hc0 : c0
  · rw [if_pos hc0]
    simp [List.lookup, h1]
  · rw [if_neg hc0, List.lookup_append, lookup_ite_single_ne _ _ h2,
      lookup_ite_single_ne _ _ h3]
    rfl

lemma lookup_scaletree_s (c0 c1 c2 : Prop) [Decidable c0] [Decidable c1] [Decidable c2]
    (v0 v1 v2 : JValue) :
    List.lookup "s" (if c0 then [("s", v0)]
      else (if c1 then [("sx", v1)] else []) ++ (if c2 then [("sy", v2)] else []))
      = if c0 then some v0 else none := by
  split_ifs <;> simp [List.lookup_append, List.lookup]

lemma lookup_scaletree_sx (c0 c1 c2 : Prop) [Decidable c0] [Decidable c1] [Decidable c2]
    (v0 v1 v2 : JValue) :
    List.lookup "sx" (if c0 then [("s", v0)]
      else (if c1 then [("sx", v1)] else []) ++ (if c2 then [("sy", v2)] else []))
      = if c0 then none else if c1 then some v1 else none := by
  split_ifs <;> simp [List.lookup_append, List.lookup]

lemma lookup_scaletree_sy (c0 c1 c2 : Prop) [Decidable c0] [Decidable c1] [Decidable c2]
    (v0 v1 v2 : JValue) :
    List.lookup "sy" (if c0 then [("s", v0)]
      else (if c1 then [("sx", v1)] else []) ++ (if c2 then [("sy", v2)] else []))
      = if c0 then none else if c2 then some v2 else none := by
  split_ifs <;> simp [List.lookup_append, List.lookup]

lemma jget_export_e (s : SpriteObject ℚ) (e : String) (he : s.emoji = some e) :
    jget (exportElem s) "e" = JValue.jstr e := by
  rw [exportElem_fields, jget_jobj]
  rw [List.lookup_append, List.lookup_append, List.lookup_append, List.lookup_append]
  rw [lookup_emoji_piece_e, he]
  rfl

lemma jget_export_x (s : SpriteObject ℚ) :
    jget (exportElem s) "x"
      = (if round2 s.x ≠ 0 then JValue.jnum (round2 s.x) else JValue.jundefined) := by
  rw [exportElem_fields, jget_jobj]
  rw [List.lookup_append, List.lookup_append, List.lookup_append, List.lookup_append]
  rw [lookup_emoji_piece_ne s.emoji (by decide), lookup_ite_single_eq,
    lookup_ite_single_ne _ _ (by decide), lookup_ite_single_ne _ _ (by decide),
    lookup_scaletree_ne _ _ _ _ _ _ (by decide) (by decide) (by decide)]
  split_ifs <;> rfl

lemma jget_export_y (s : SpriteObject ℚ) :
    jget (exportElem s) "y"
      = (if round2 s.y ≠ 0 then JValue.jnum (round2 s.y) else JValue.jundefined) := by
  rw [exportElem_fields, jget_jobj]
  rw [List.lookup_append, List.lookup_append, List.lookup_append, List.lookup_append]
  rw [lookup_emoji_piece_ne s.emoji (by decide), lookup_ite_single_ne _ _ (by decide),
    lookup_ite_single_eq, lookup_ite_single_ne _ _ (by decide),
    lookup_scaletree_ne _ _ _ _ _ _ (by decide) (by decide) (by decide)]
  split_ifs <;> rfl

lemma jget_export_r (s : SpriteObject ℚ) :
    jget (exportElem s) "r"
      = (if round1 s.rotation ≠ 0 then JValue.jnum (round1 s.rotation)
          else JValue.jundefined) := by
  rw [exportElem_fields, jget_jobj]
  rw [List.lookup_append, List.lookup_append, List.lookup_append, List.lookup_append]
  rw [lookup_emoji_piece_ne s.emoji (by decide), lookup_ite_single_ne _ _ (by decide),
    lookup_ite_single_ne _ _ (by decide), lookup_ite_single_eq,
    lookup_scaletree_ne _ _ _ _ _ _ (by decide) (by decide) (by decide)]
  split_ifs <;> rfl

lemma jget_export_absent (s : SpriteObject ℚ) (k : String)
    (h0 : (k == "e") = false) (h1 : (k == "x") = false) (h2 : (k == "y") = false)
    (h3 : (k == "r") = false) (h4 : (k == "s") = false) (h5 : (k == "sx") = false)
    (h6 : (k == "sy") = false) :
    jget (exportElem s) k = JValue.jundefined := by
  rw [exportElem_fields, jget_jobj]
  rw [List.lookup_append, List.lookup_append, List.lookup_append, List.lookup_append]
  rw [lookup_emoji_piece_ne s.emoji h0, lookup_ite_single_ne _ _ h1,
    lookup_ite_single_ne _ _ h2, lookup_ite_single_ne _ _ h3,
    lookup_scaletree_ne _ _ _ _ _ _ h4 h5 h6]
  rfl

lemma jget_export_s (s : SpriteObject ℚ) :
    jget (exportElem s) "s"
      = (if round4 s.scaleX = round4 s.scaleY ∧ round4 s.scaleX ≠ 1
          then JValue.jnum (round4 s.scaleX) else JValue.jundefined) := by
  rw [exportElem_fields, jget_jobj]
  rw [List.lookup_append, List.lookup_append, List.lookup_append, List.lookup_append]
  rw [lookup_emoji_piece_ne s.emoji (by decide), lookup_ite_single_ne _ _ (by decide),
    lookup_ite_single_ne _ _ (by decide), lookup_ite_single_ne _ _ (by decide),
    lookup_scaletree_s]
  split_ifs <;> rfl

lemma jget_export_sx (s : SpriteObject ℚ) :
    jget (exportElem s) "sx"
      = (if round4 s.scaleX = round4 s.scaleY ∧ round4 s.scaleX ≠ 1 then JValue.jundefined
          else if round4 s.scaleX ≠ 1 then JValue.jnum (round4 s.scaleX)
          else JValue.jundefined) := by
  rw [exportElem_fields, jget_jobj]
  rw [List.lookup_append, List.lookup_append, List.lookup_append, List.lookup_append]
  rw [lookup_emoji_piece_ne s.emoji (by decide), lookup_ite_single_ne _ _ (by decide),
    lookup_ite_single_ne _ _ (by decide), lookup_ite_single_ne _ _ (by decide),
    lookup_scaletree_sx]
  split_ifs <;> rfl

lemma jget_export_sy (s : SpriteObject ℚ) :
    jget (exportElem s) "sy"
      = (if round4 s.scaleX = round4 s.scaleY ∧ round4 s.scaleX ≠ 1 then JValue.jundefined
          else if round4 s.scaleY ≠ 1 then JValue.jnum (round4 s.scaleY)
          else JValue.jundefined) := by
  rw [exportElem_fields, jget_jobj]
  rw [List.lookup_append, List.lookup_append, List.lookup_append, List.lookup_append]
  rw [lookup_emoji_piece_ne s.emoji (by decide), lookup_ite_single_ne _ _ (by decide),
    lookup_ite_single_ne _ _ (by decide), lookup_ite_single_ne _ _ (by decide),
    lookup_scaletree_sy]
  split_ifs <;> rfl

lemma importScale_exportElem (s : SpriteObject ℚ) :
    importScale (exportElem s) = (round4 s.scaleX, round4 s.scaleY) := by
  have hs := jget_export_s s
  have hsx := jget_export_sx s
  have hsy := jget_export_sy s
  by_cases hu : round4 s.scaleX = round4 s.scaleY ∧ round4 s.scaleX ≠ 1
  · rw [if_pos hu] at hs
    unfold importScale
    rw [hs]
    simp only [isUndef, Bool.not_false, if_true, jsNum]
    rw [hu.1]
  · rw [if_neg hu] at hs hsx hsy
    unfold importScale
    rw [hs]
    simp only [isUndef, Bool.not_true, Bool.false_or, if_false]
    by_cases ha : round4 s.scaleX ≠ 1
    · rw [if_pos ha] at hsx
      rw [hsx]
      by_cases hb : round4 s.scaleY ≠ 1
      · rw [if_pos hb] at hsy
        rw [hsy]
        simp [isUndef, jsNum]
      · rw [if_neg hb] at hsy
        rw [hsy]
        push_neg at hb
        simp [isUndef, jsNum, hb]
    · rw [if_neg ha] at hsx
      rw [hsx]
      push_neg at ha
      by_cases hb : round4 s.scaleY ≠ 1
      · rw [if_pos hb] at hsy
        rw [hsy]
        simp [isUndef, jsNum, ha]
      · rw [if_neg hb] at hsy
        rw [hsy]
        push_neg at hb
        rw [jget_export_absent s "scaleX" (by decide) (by decide) (by decide) (by decide)
            (by decide) (by decide) (by decide),
          jget_export_absent s "scaleY" (by decide) (by decide) (by decide) (by decide)
            (by decide) (by decide) (by decide),
          jget_export_absent s "scale" (by decide) (by decide) (by decide) (by decide)
            (by decide) (by decide) (by decide)]
        simp [isUndef, ha, hb]

lemma importElem_exportElem (nid idx : ℕ) (s : SpriteObject ℚ) (e : String)
    (he : s.emoji = some e) (hne : e ≠ "") :
    importElem nid idx (exportElem s) = Except.ok (roundedSprite nid idx s) := by
  have h0 : importElem nid idx (exportElem s) = Except.ok
      { id := "sprite-" ++ toString (nid + idx),
        emoji := jsContent (jget (exportElem s) "e") (jget (exportElem s) "emoji"),
        x := jsOrNum (jget (exportElem s) "x") 0,
        y := jsOrNum (jget (exportElem s) "y") 0,
        rotation := if !isUndef (jget (exportElem s) "r")
          then jsNum (jget (exportElem s) "r")
          else jsOrNum (jget (exportElem s) "rotation") 0,
        scaleX := (importScale (exportElem s)).1,
        scaleY := (importScale (exportElem s)).2,
        zIndex := (idx : ℤ) } := rfl
  have hemoji : jsContent (jget (exportElem s) "e") (jget (exportElem s) "emoji")
      = s.emoji := by
    rw [jget_export_e s e he, he]
    simp [jsContent, jsTruthy, hne]
  have hx : jsOrNum (jget (exportElem s) "x") 0 = round2 s.x := by
    rw [jget_export_x s]
    by_cases hc : round2 s.x ≠ 0
    · rw [if_pos hc]
      simp [jsOrNum, hc]
    · rw [if_neg hc]
      push_neg at hc
      simp [jsOrNum, hc]
  have hy : jsOrNum (jget (exportElem s) "y") 0 = round2 s.y := by
    rw [jget_export_y s]
    by_cases hc : round2 s.y ≠ 0
    · rw [if_pos hc]
      simp [jsOrNum, hc]
    · rw [if_neg hc]
      push_neg at hc
      simp [jsOrNum, hc]
  have hr : (if !isUndef (jget (exportElem s) "r") then jsNum (jget (exportElem s) "r")
      else jsOrNum (jget (exportElem s) "rotation") 0) = round1 s.rotation := by
    rw [jget_export_r s,
      jget_export_absent s "rotation" (by decide) (by decide) (by decide) (by decide)
        (by decide) (by decide) (by decide)]
    by_cases hc : round1 s.rotation ≠ 0
    · rw [if_pos hc]
      simp [isUndef, jsNum]
    · rw [if_neg hc]
      push_neg at hc
      simp [isUndef, jsOrNum, hc]
  rw [h0, hemoji, hx, hy, hr, importScale_exportElem]
  rfl

lemma importElems_export (nid : ℕ) :
    ∀ (l : List (SpriteObject ℚ)), (∀ s ∈ l, ∃ e, s.emoji = some e ∧ e ≠ "") →
    ∀ i, importElems nid i (l.map exportElem) = Except.ok (roundListFrom nid i l) := by
  intro l
  induction l with
  | nil =>
    intro _ i
    rfl
  | cons s rest ih =>
    intro hgood i
    obtain ⟨e, he, hne⟩ := hgood s (List.mem_cons_self _ _)
    have hrest := ih (fun t ht => hgood t (List.mem_cons_of_mem _ ht)) (i + 1)
    simp only [List.map_cons, importElems, importElem_exportElem nid i s e he hne, hrest]
    rfl

lemma roundListFrom_length (nid : ℕ) :
    ∀ (l : List (SpriteObject ℚ)) (i : ℕ), (roundListFrom nid i l).length = l.length := by
  intro l
  induction l with
  | nil =>
    intro i
    rfl
  | cons s rest ih =>
    intro i
    simp [roundListFrom, ih]

lemma roundListFrom_getElem? (nid : ℕ) :
    ∀ (l : List (SpriteObject ℚ)) (i k : ℕ) (hk : k < l.length),
      (roundListFrom nid i l)[k]? = some (roundedSprite nid (i + k) l[k]) := by
  intro l
  induction l with
  | nil =>
    intro i k hk
    simp at hk
  | cons s rest ih =>
    intro i k hk
    cases k with
    | zero => simp [roundListFrom]
    | succ k =>
      simp only [roundListFrom, List.getElem?_cons_succ, List.getElem_cons_succ]
      rw [ih (i + 1) k (by simpa using hk)]
      have : i + 1 + k = i + (k + 1) := by omega
      rw [this]

/-- C1: exporting any sprite list with nonempty content and a dense
`zIndex` assignment and importing the result succeeds, and yields, at
each array position `k`, the sprite that had `zIndex = k`, with `x`,`y`
rounded to 2 decimals, rotation to 1, scales to 4, content preserved,
and `zIndex` regenerated densely from array position. -/
theorem c1_export_import_roundtrip (l : List (SpriteObject ℚ)) (m : StateManager)
    (hgood : ∀ s ∈ l, ∃ e, s.emoji = some e ∧ e ≠ "") (hd : denseZ l) :
    (importJSON (some (exportJSON l)) m).1 = true ∧
    (importJSON (some (exportJSON l)) m).2.state.sprites.length = l.length ∧
    ∀ k (hk : k < l.length), ∃ s ∈ l, s.zIndex = (k : ℤ) ∧
      (importJSON (some (exportJSON l)) m).2.state.sprites[k]?
        = some (roundedSprite m.state.nextId k s) := by
  have hgoodsort : ∀ s ∈ sortZ l, ∃ e, s.emoji = some e ∧ e ≠ "" :=
    fun s hs => hgood s ((sortZ_perm l).mem_iff.mp hs)
  have hok : importElems m.state.nextId 0 ((sortZ l).map exportElem)
      = Except.ok (roundListFrom m.state.nextId 0 (sortZ l)) :=
    importElems_export m.state.nextId (sortZ l) hgoodsort 0
  have hres : importJSON (some (exportJSON l)) m
      = (true, commitEdit (fun es =>
          { es with
            sprites := roundListFrom m.state.nextId 0 (sortZ l),
            nextId := es.nextId + (roundListFrom m.state.nextId 0 (sortZ l)).length,
            selectedId := none }) m) := by
    have h1 : importJSON (some (exportJSON l)) m
        = (match importElems m.state.nextId 0 ((sortZ l).map exportElem) with
           | Except.error _ => (false, m)
           | Except.ok sprites => (true, commitEdit (fun es =>
              { es with
                sprites := sprites,
                nextId := es.nextId + sprites.length,
                selectedId := none }) m)) := rfl
    rw [h1, hok]
  rw [hres]
  refine ⟨rfl, ?_, ?_⟩
  · rw [commitEdit_state]
    exact (roundListFrom_length _ _ _).trans (sortZ_length l)
  · intro k hk
    have hk2 : k < (sortZ l).length := by
      rw [sortZ_length]
      exact hk
    refine ⟨(sortZ l)[k], (sortZ_perm l).mem_iff.mp (List.getElem_mem hk2),
      sortZ_getElem_zIndex l hd k hk2, ?_⟩
    rw [commitEdit_state]
    have := roundListFrom_getElem? m.state.nextId (sortZ l) 0 k hk2
    rw [this]
    have hzero : 0 + k = k := by omega
    rw [hzero]

/-- Witness: the round trip evaluated on a one-sprite list. -/
theorem c1_export_import_roundtrip_witness :
    (importJSON (some (exportJSON [sampleSpriteA])) sampleManager).1 = true ∧
    (importJSON (some (exportJSON [sampleSpriteA])) sampleManager).2.state.sprites.length
      = [sampleSpriteA].length ∧
    ∀ k (hk : k < [sampleSpriteA].length), ∃ s ∈ [sampleSpriteA], s.zIndex = (k : ℤ) ∧
      (importJSON (some (exportJSON [sampleSpriteA])) sampleManager).2.state.sprites[k]?
        = some (roundedSprite sampleManager.state.nextId k s) :=
  c1_export_import_roundtrip [sampleSpriteA] sampleManager
    (by
      intro s hs
      simp only [List.mem_singleton] at hs
      subst hs
      exact ⟨"A", rfl, by decide⟩)
    (by unfold denseZ rangeZ; decide)

/-- C4 counterexample: the array `[{}]` is not a valid compact sprite
array (its element lacks the required content field `e`), yet
`importJSON` accepts it: it returns `true` and replaces the sprite list
with a made-up sprite. -/
theorem c4_import_counterexample :
    ¬ specValidCompactElem (JValue.jobj []) ∧
    (importJSON (some (JValue.jarr [JValue.jobj []])) sampleManager).1 = true ∧
    (importJSON (some (JValue.jarr [JValue.jobj []])) sampleManager).2.state.sprites
      ≠ sampleManager.state.sprites := by
  refine ⟨?_, rfl, by decide⟩
  rintro ⟨s, hs⟩
  simp [jget, List.lookup] at hs

lemma importJSON_arr (items : List JValue) (m : StateManager) :
    importJSON (some (JValue.jarr items)) m
      = (match importElems m.state.nextId 0 items with
         | Except.error _ => (false, m)
         | Except.ok sprites => (true, commitEdit (fun es =>
            { es with
              sprites := sprites,
              nextId := es.nextId + sprites.length,
              selectedId := none }) m)) := rfl

lemma importJSON_obj (fields : List (String × JValue)) (m : StateManager) :
    importJSON (some (JValue.jobj fields)) m
      = (match jget (JValue.jobj fields) "sprites" with
         | JValue.jarr _ => (true, commitEdit (fun _ => legacyStateOf (JValue.jobj fields)) m)
         | _ => (false, m)) := rfl

/-- C4 (amended): `importJSON` returns false and leaves the manager
exactly unchanged when the input fails to parse or parses to a value
that is neither an array nor an object carrying a sprites array;
whenever it returns false the manager is unchanged; and it returns true
only when the state was rebuilt from the input (the compact-array or the
legacy branch). -/
theorem c4_import_failure (j : Option JValue) (m : StateManager) :
    (j = none → importJSON j m = (false, m)) ∧
    (∀ v, j = some v → (∀ items, v ≠ JValue.jarr items) →
      (∀ items, jget v "sprites" ≠ JValue.jarr items) →
      importJSON j m = (false, m)) ∧
    ((importJSON j m).1 = false → (importJSON j m).2 = m) ∧
    ((importJSON j m).1 = true → ∃ v, j = some v ∧
      ((∃ items sprites, v = JValue.jarr items ∧
          importElems m.state.nextId 0 items = Except.ok sprites ∧
          (importJSON j m).2.state.sprites = sprites) ∨
        (importJSON j m).2.state = legacyStateOf v)) := by
  refine ⟨?_, ?_, ?_, ?_⟩
  · intro h
    rw [h]
    rfl
  · intro v hv harr hspr
    rw [hv]
    rcases v with _ | _ | b | q | str | items | fields
    · rfl
    · rfl
    · rfl
    · rfl
    · rfl
    · exact absurd rfl (harr items)
    · rw [importJSON_obj]
      rcases hg : jget (JValue.jobj fields) "sprites" with _ | _ | b2 | q2 | s2 | items2 | fs2
      · rfl
      · rfl
      · rfl
      · rfl
      · rfl
      · exact absurd hg (hspr items2)
      · rfl
  · intro h
    rcases j with _ | v
    · rfl
    · rcases v with _ | _ | b | q | str | items | fields
      · rfl
      · rfl
      · rfl
      · rfl
      · rfl
      · rw [importJSON_arr] at h ⊢
        rcases he : importElems m.state.nextId 0 items with u | sprites
        · rfl
        · rw [he] at h
          simp at h
      · rw [importJSON_obj] at h ⊢
        rcases hg : jget (JValue.jobj fields) "sprites" with _ | _ | b2 | q2 | s2 | items2 | fs2
        all_goals rw [hg] at h
        all_goals first
          | rfl
          | simp at h
  · intro h
    rcases j with _ | v
    · simp [importJSON] at h
    · refine ⟨v, rfl, ?_⟩
      rcases v with _ | _ | b | q | str | items | fields
      · simp [importJSON] at h
      · simp [importJSON, jget] at h
      · simp [importJSON, jget] at h
      · simp [importJSON, jget] at h
      · simp [importJSON, jget] at h
      · left
        rw [importJSON_arr] at h ⊢
        rcases he : importElems m.state.nextId 0 items with u | sprites
        · rw [he] at h
          simp at h
        · refine ⟨items, sprites, rfl, he, ?_⟩
          exact congrArg EditorState.sprites (commitEdit_state _ m)
      · right
        rw [importJSON_obj] at h ⊢
        rcases hg : jget (JValue.jobj fields) "sprites" with _ | _ | b2 | q2 | s2 | items2 | fs2
        all_goals rw [hg] at h
        all_goals first
          | (exact commitEdit_state _ m)
          | (simp at h)

/-- Witness: an unparsable input is rejected with the manager unchanged. -/
theorem c4_import_failure_witness :
    importJSON none sampleManager = (false, sampleManager) :=
  (c4_import_failure none sampleManager).1 rfl

/-- C8: `worldToLocal` is the exact inverse of the paint transform
(scale, then rotate, then translate) whenever both scales are nonzero. -/
theorem c8_worldToLocal_inverse (s : SpriteObject ℝ) (px py : ℝ)
    (hsx : s.scaleX ≠ 0) (hsy : s.scaleY ≠ 0) :
    worldToLocal s (paintPoint s px py).1 (paintPoint s px py).2 = (px, py) := by
  unfold worldToLocal worldToLocalWithScale paintPoint rotatePoint
  simp only
  have hneg : -s.rotation * Real.pi / 180 = -(s.rotation * Real.pi / 180) := by ring
  rw [hneg, Real.cos_neg, Real.sin_neg]
  have hpy := Real.sin_sq_add_cos_sq (s.rotation * Real.pi / 180)
  set c := Real.cos (s.rotation * Real.pi / 180) with hc
  set sn := Real.sin (s.rotation * Real.pi / 180) with hsn
  apply Prod.ext
  · show (((s.x + (px * s.scaleX * c - py * s.scaleY * sn)) - s.x) * c
      - ((s.y + (px * s.scaleX * sn + py * s.scaleY * c)) - s.y) * (-sn)) / s.scaleX = px
    field_simp
    linear_combination (px * s.scaleX) * hpy
  · show (((s.x + (px * s.scaleX * c - py * s.scaleY * sn)) - s.x) * (-sn)
      + ((s.y + (px * s.scaleX * sn + py * s.scaleY * c)) - s.y) * c) / s.scaleY = py
    field_simp
    linear_combination (py * s.scaleY) * hpy

/-- Witness: the inverse property evaluated at a concrete unrotated
sprite and point. -/
theorem c8_worldToLocal_inverse_witness :
    worldToLocal scaledSprite (paintPoint scaledSprite 3 4).1 (paintPoint scaledSprite 3 4).2
      = (3, 4) :=
  c8_worldToLocal_inverse scaledSprite 3 4 (by norm_num [scaledSprite]) (by norm_num [scaledSprite])

/-- C3: an unmodified corner-scale drag on an unrotated unit-scale
sprite at the origin, grabbed at local point (10,10) with the pointer
now at world point (20,20), sets both scales to exactly 2, and the
grabbed local point maps to the pointer position under the updated
paint transform. -/
theorem c3_uniform_scale_pins_point :
    handleScaling 0 0 0 1 1 10 10 20 20 false = (2, 2) ∧
    paintPoint scaledSprite 10 10 = (20, 20) := by
  constructor
  · unfold handleScaling worldToLocalWithScale
    simp only [Bool.false_eq_true, if_false]
    have hrad : -(0:ℝ) * Real.pi / 180 = 0 := by ring
    rw [hrad, Real.cos_zero, Real.sin_zero]
    have hcur : (((20:ℝ) - 0) * 1 - (20 - 0) * 0) / 1 = 20 := by norm_num
    have hs200 : Real.sqrt ((10:ℝ) * 10 + 10 * 10) = Real.sqrt 200 := by norm_num
    have hpos : (0.001 : ℝ) < Real.sqrt 200 := by
      rw [show (200:ℝ) = 0 + 200 by norm_num]
      rw [Real.lt_sqrt (by norm_num)]
      norm_num
    rw [hs200, if_pos hpos]
    have h800 : (((20:ℝ) - 0) * 1 - (20 - 0) * 0) / 1 * ((((20:ℝ) - 0) * 1 - (20 - 0) * 0) / 1)
        + ((20 - 0) * 0 + (20 - 0) * 1) / 1 * (((20 - 0) * 0 + (20 - 0) * 1) / 1)
        = (800 : ℝ) := by norm_num
    rw [h800]
    have hsqrt : Real.sqrt 800 = 2 * Real.sqrt 200 := by
      rw [show (800:ℝ) = 4 * 200 by norm_num, Real.sqrt_mul (by norm_num),
        show (4:ℝ) = 2 ^ 2 by norm_num, Real.sqrt_sq (by norm_num)]
    rw [hsqrt]
    have hne : Real.sqrt 200 ≠ 0 := by positivity
    rw [mul_div_assoc, div_self hne]
    norm_num
  · unfold paintPoint rotatePoint scaledSprite
    simp only
    rw [show (0:ℝ) * Real.pi / 180 = 0 by ring, Real.cos_zero, Real.sin_zero]
    norm_num

lemma zge_trans : ∀ a b c : SpriteObject ℝ,
    decide (b.zIndex ≤ a.zIndex) = true → decide (c.zIndex ≤ b.zIndex) = true →
      decide (c.zIndex ≤ a.zIndex) = true := by
  intro a b c
  simp only [decide_eq_true_eq]
  omega

lemma zge_total : ∀ a b : SpriteObject ℝ,
    (decide (b.zIndex ≤ a.zIndex) || decide (a.zIndex ≤ b.zIndex)) = true := by
  intro a b
  simp only [Bool.or_eq_true, decide_eq_true_eq]
  omega

lemma sortZDesc_perm (l : List (SpriteObject ℝ)) : (sortZDesc l).Perm l :=
  List.mergeSort_perm l _

lemma sortZDesc_pairwise (l : List (SpriteObject ℝ)) :
    (sortZDesc l).Pairwise (fun a b => b.zIndex ≤ a.zIndex) :=
  (List.sorted_mergeSort zge_trans zge_total l).imp (fun h => by simpa using h)

open Classical in
lemma find?_desc_max (metrics : GlyphMetrics) (wx wy : ℝ) :
    ∀ ms : List (SpriteObject ℝ), ms.Pairwise (fun a b => b.zIndex ≤ a.zIndex) →
    ∀ t, ms.find? (fun s => decide (isPointInSprite metrics s wx wy)) = some t →
      isPointInSprite metrics t wx wy ∧
        ∀ u ∈ ms, isPointInSprite metrics u wx wy → u.zIndex ≤ t.zIndex := by
  intro ms
  induction ms with
  | nil =>
    intro _ t ht
    simp at ht
  | cons a rest ih =>
    intro hpw t ht
    rw [List.pairwise_cons] at hpw
    by_cases ha : isPointInSprite metrics a wx wy
    · rw [List.find?_cons_of_pos _ (by simpa using ha)] at ht
      injection ht with ht
      subst ht
      refine ⟨ha, ?_⟩
      intro u hu _
      rcases List.mem_cons.mp hu with rfl | hu'
      · omega
      · exact hpw.1 u hu'
    · rw [List.find?_cons_of_neg _ (by simpa using ha)] at ht
      obtain ⟨hct, hmax⟩ := ih hpw.2 t ht
      refine ⟨hct, ?_⟩
      intro u hu hcu
      rcases List.mem_cons.mp hu with rfl | hu'
      · exact absurd hcu ha
      · exact hmax u hu' hcu

open Classical in
lemma hitTest_found (metrics : GlyphMetrics) (l : List (SpriteObject ℝ)) (wx wy : ℝ)
    (s : SpriteObject ℝ) (hs : s ∈ l) (hc : isPointInSprite metrics s wx wy) :
    ∃ t ∈ l, hitTest metrics l wx wy = some t.id ∧ isPointInSprite metrics t wx wy ∧
      ∀ u ∈ l, isPointInSprite metrics u wx wy → u.zIndex ≤ t.zIndex := by
  rcases hfind : (sortZDesc l).find? (fun s => decide (isPointInSprite metrics s wx wy))
      with _ | t
  · exfalso
    have := List.find?_eq_none.mp hfind s ((sortZDesc_perm l).mem_iff.mpr hs)
    simp at this
    exact this hc
  · obtain ⟨hct, hmax⟩ := find?_desc_max metrics wx wy (sortZDesc l)
      (sortZDesc_pairwise l) t hfind
    refine ⟨t, (sortZDesc_perm l).mem_iff.mp (List.mem_of_find?_eq_some hfind), ?_, hct, ?_⟩
    · unfold hitTest
      rw [hfind]
      rfl
    · intro u hu hcu
      exact hmax u ((sortZDesc_perm l).mem_iff.mpr hu) hcu

lemma overlap_contains_origin_A : isPointInSprite squareMetrics overlapA 0 0 := by
  unfold isPointInSprite getSpriteBounds squareMetrics overlapA
  simp only
  rw [show -(0:ℝ) * Real.pi / 180 = 0 by ring, Real.cos_zero, Real.sin_zero]
  norm_num

lemma overlap_contains_origin_B : isPointInSprite squareMetrics overlapB 0 0 := by
  unfold isPointInSprite getSpriteBounds squareMetrics overlapB
  simp only
  rw [show -(0:ℝ) * Real.pi / 180 = 0 by ring, Real.cos_zero, Real.sin_zero]
  norm_num

/-- C2: `hitTest` returns none when no sprite contains the point, and
otherwise the id of a containing sprite of maximal `zIndex`; in
particular, for overlapping sprites A (`zIndex = 0`) and B
(`zIndex = 1`) both containing the origin, it returns B's id. -/
theorem c2_hitTest_topmost (metrics : GlyphMetrics) (l : List (SpriteObject ℝ))
    (wx wy : ℝ) :
    ((∀ s ∈ l, ¬ isPointInSprite metrics s wx wy) → hitTest metrics l wx wy = none) ∧
    (∀ s ∈ l, isPointInSprite metrics s wx wy →
      ∃ t ∈ l, hitTest metrics l wx wy = some t.id ∧ isPointInSprite metrics t wx wy ∧
        ∀ u ∈ l, isPointInSprite metrics u wx wy → u.zIndex ≤ t.zIndex) ∧
    hitTest squareMetrics [overlapA, overlapB] 0 0 = some "B" := by
  refine ⟨?_, ?_, ?_⟩
  · intro hnone
    unfold hitTest
    rw [List.find?_eq_none.mpr ?_]
    · rfl
    · intro x hx
      simp only [decide_eq_true_eq]
      exact hnone x ((sortZDesc_perm l).mem_iff.mp hx)
  · intro s hs hc
    exact hitTest_found metrics l wx wy s hs hc
  · obtain ⟨t, htl, hres, hct, hmax⟩ := hitTest_found squareMetrics [overlapA, overlapB] 0 0
      overlapA (by simp) overlap_contains_origin_A
    have hbz := hmax overlapB (by simp) overlap_contains_origin_B
    rcases List.mem_cons.mp htl with rfl | ht'
    · exact absurd hbz (by decide)
    · rcases List.mem_cons.mp ht' with rfl | ht''
      · exact hres
      · simp at ht''

/-- Witness: the empty sprite list yields no hit. -/
theorem c2_hitTest_topmost_witness :
    hitTest squareMetrics ([] : List (SpriteObject ℝ)) 0 0 = none :=
  (c2_hitTest_topmost squareMetrics [] 0 0).1 (by simp)
